import Mathlib

/-!
Formal model of the snapchain LinkStore (src/storage/store/account/link_store.rs).

The LinkStore persists social-graph link messages in an ordered key-value
store as a two-phase CRDT set with Last-Write-Wins + Remove-Wins conflict
resolution.  This file embeds the key codec, the conflict comparator, the
merge path and the query surface of the store, and proves the spec's claimed
properties about them.

Modelling conventions:
* machine integers are `Nat`; `u32` truncation is explicit `% 2 ^ 32`;
* byte strings are `List Nat` (each entry a byte value);
* the ordered KV store is a function from keys to optional values; a value
  is either raw bytes (secondary index entries hold tsHashes) or a message
  record (serialization is out of scope per the spec, so the primary record
  holds the message itself);
* fallible Rust functions returning `Result<_, HubError>` become
  `Except HubError _`.

Functions of the repository that are not part of the given source file
(the generic store skeleton, byte utilities, numeric constants) are marked
`Modelled from the spec:` in their doc comments and follow the spec's words.
-/

namespace Snapchain

/-- Byte strings: the key and value type of the ordered KV store. -/
abbrev Bytes := List Nat

/-- Modelled from the spec: lexicographic byte-string comparison used by the
conflict comparator (the `bytes_compare` utility is not part of the source
file).  Returns -1, 0 or 1. -/
def bytesCompare : Bytes → Bytes → Int
  | [], [] => 0
  | [], _ :: _ => -1
  | _ :: _, [] => 1
  | a :: as, b :: bs => if a < b then -1 else if b < a then 1 else bytesCompare as bs

/-- Modelled from the spec: big-endian byte encoding of a natural number on
`k` bytes (the spec's `fid(4B BE)` and timestamp layout; lexicographic byte
order equals numeric order). -/
def beBytes : Nat → Nat → Bytes
  | 0, _ => []
  | k + 1, n => (n / 2 ^ (8 * k)) % 256 :: beBytes k (n % 2 ^ (8 * k))

/-- Three-way comparison of naturals as an `Int` sign, for stating the
correspondence between byte order and numeric order. -/
def natCmp (a b : Nat) : Int := if a < b then -1 else if a = b then 0 else 1

/-- The error type of the store: a code string and a human-readable message,
mirroring `HubError` in the source. -/
structure HubError where
  code : String
  message : String
deriving DecidableEq, Repr

/-- Constructor for validation failures, mirroring
`HubError::validation_failure`. -/
def HubError.validation_failure (msg : String) : HubError :=
  { code := "bad_request.validation_failure", message := msg }

/-- Constructor for invalid-parameter errors, mirroring
`HubError::invalid_parameter`. -/
def HubError.invalid_parameter (msg : String) : HubError :=
  { code := "bad_request.invalid_param", message := msg }

/-- The target of a link, mirroring `proto::link_body::Target` (a one-variant
enum holding the target fid as a `u64`). -/
inductive Target where
  | targetFid (fid : Nat)
deriving DecidableEq, Repr

/-- The body of a link message, mirroring `proto::LinkBody`: the relation
type (its UTF-8 bytes; the source validates the byte length) and the
optional target. -/
structure LinkBody where
  type : Bytes
  target : Option Target
deriving DecidableEq, Repr

/-- The body of a compact-state message, mirroring
`proto::LinkCompactStateBody`. -/
structure LinkCompactStateBody where
  type : Bytes
  targetFids : List Nat
deriving DecidableEq, Repr

/-- The body variants of a message, mirroring `proto::message_data::Body`
(variants other than the two link bodies are collapsed into `otherBody`). -/
inductive Body where
  | linkBody (b : LinkBody)
  | linkCompactStateBody (b : LinkCompactStateBody)
  | otherBody
deriving DecidableEq, Repr

/-- Message payload, mirroring `proto::MessageData`: fid (`u64`), numeric
message type, timestamp (`u32`) and optional body. -/
structure MessageData where
  fid : Nat
  type : Nat
  timestamp : Nat
  body : Option Body
deriving DecidableEq, Repr

/-- A signed message, mirroring `proto::Message`: optional data, the 20-byte
content hash and the signature scheme. -/
structure Message where
  data : Option MessageData
  hash : Bytes
  signatureScheme : Nat
deriving DecidableEq, Repr

/-- Default (all-zero) message data, mirroring `MessageData::default()`. -/
def mdDefault : MessageData := { fid := 0, type := 0, timestamp := 0, body := none }

/-- Modelled from the spec: `MessageType::LinkAdd = 5` (wire value given in
the spec's external-interface section). -/
def linkAddType : Nat := 5

/-- Modelled from the spec: `MessageType::LinkRemove = 6`. -/
def linkRemoveType : Nat := 6

/-- Modelled from the spec: `MessageType::LinkCompactState = 14`. -/
def linkCompactStateType : Nat := 14

/-- Modelled from the spec: `SignatureScheme::Ed25519 = 1`. -/
def ed25519Scheme : Nat := 1

/-- Modelled from the spec: the `RootPrefix::User` byte (numeric value not
fixed by the source file; only distinctness of prefix bytes matters). -/
def rootUser : Nat := 1

/-- Modelled from the spec: the `RootPrefix::LinksByTarget` byte. -/
def rootLinksByTarget : Nat := 3

/-- Modelled from the spec: the `UserPostfix::LinkMessage` byte (the primary
message record family). -/
def upLinkMessage : Nat := 10

/-- Modelled from the spec: the `UserPostfix::LinkAdds` byte (the Adds Set
index family). -/
def upLinkAdds : Nat := 11

/-- Modelled from the spec: the `UserPostfix::LinkRemoves` byte (the Removes
Set index family). -/
def upLinkRemoves : Nat := 12

/-- Modelled from the spec: the `UserPostfix::LinkCompactStateMessage`
byte. -/
def upLinkCompactState : Nat := 13

/-- The `TS_HASH_LENGTH` constant: a tsHash is a 4-byte big-endian timestamp
followed by the 20-byte hash. -/
def TS_HASH_LENGTH : Nat := 24

/-- The `LinkStore::LINK_TYPE_BYTE_SIZE` constant: type-string key components
are padded to 8 bytes. -/
def LINK_TYPE_BYTE_SIZE : Nat := 8

/-- Modelled from the spec: `make_fid_key` — a fid is serialized as a 4-byte
big-endian unsigned integer (the utility itself is not in the source
file). -/
def make_fid_key (fid : Nat) : Bytes := beBytes 4 fid

/-- Modelled from the spec: `make_user_key` — `RootPrefix.User` followed by
the 4-byte fid. -/
def make_user_key (fid : Nat) : Bytes := rootUser :: make_fid_key fid

/-- Modelled from the spec: `make_message_primary_key` — the primary record
key `RootPrefix.User ‖ fid(4B BE) ‖ postfix ‖ tsHash`. -/
def make_message_primary_key (fid : Nat) (postfixByte : Nat) (tsh : Bytes) : Bytes :=
  make_user_key fid ++ postfixByte :: tsh

/-- Rust's `Vec::resize(n, 0)` on byte vectors: truncate or pad with zero
bytes to exactly `n` bytes.  Used for the padded type component. -/
def resizeZero (n : Nat) (b : Bytes) : Bytes :=
  b.take n ++ List.replicate (n - b.length) 0

/-- The `add_message_type` capability of the LinkStore `StoreDef`
implementation. -/
def add_message_type : Nat := linkAddType

/-- The `remove_message_type` capability of the LinkStore `StoreDef`
implementation. -/
def remove_message_type : Nat := linkRemoveType

/-- The `compact_state_message_type` capability of the LinkStore `StoreDef`
implementation. -/
def compact_state_message_type : Nat := linkCompactStateType

/-- The LinkStore `postfix` capability: primary link records live under
`UserPostfix::LinkMessage`. -/
def linkStorePostfixByte : Nat := upLinkMessage

/-- The `is_add_type` predicate from the source: Ed25519-signed, data
present, type `LinkAdd`, body present. -/
def is_add_type (m : Message) : Bool :=
  m.signatureScheme == ed25519Scheme &&
    (match m.data with
     | some d => d.type == linkAddType && d.body.isSome
     | none => false)

/-- The `is_remove_type` predicate from the source. -/
def is_remove_type (m : Message) : Bool :=
  m.signatureScheme == ed25519Scheme &&
    (match m.data with
     | some d => d.type == linkRemoveType && d.body.isSome
     | none => false)

/-- The `is_compact_state_type` predicate from the source. -/
def is_compact_state_type (m : Message) : Bool :=
  m.signatureScheme == ed25519Scheme &&
    (match m.data with
     | some d => d.type == linkCompactStateType && d.body.isSome
     | none => false)

/-- The message's numeric data type, as read by
`message.data.as_ref().unwrap().r#type` at the source's call sites (the
unwrap is only reached on messages with data present). -/
def dataTypeOf (m : Message) : Nat := (m.data.getD mdDefault).type

/-- The message's timestamp. -/
def tsOf (m : Message) : Nat := (m.data.getD mdDefault).timestamp

/-- The message's fid truncated to 32 bits, as in the source's
`data.fid as u32` casts. -/
def fid32_of (m : Message) : Nat := (m.data.getD mdDefault).fid % 2 ^ 32

/-- Modelled from the spec: the message's 24-byte tsHash — 4-byte big-endian
timestamp followed by the 20-byte hash (`make_ts_hash` is part of the store
skeleton, not of the source file).  Fails when the message has no data. -/
def make_ts_hash (m : Message) : Except HubError Bytes :=
  match m.data with
  | none => .error (HubError.invalid_parameter "invalid message data")
  | some d => .ok (beBytes 4 d.timestamp ++ m.hash)

/-- The tsHash of a message as a total function (meaningful on messages with
data present); used to state properties. -/
def ts_hash_of (m : Message) : Bytes := beBytes 4 (tsOf m) ++ m.hash

/-- The `vec_to_u8_24` utility: a byte vector is convertible to `[u8; 24]`
exactly when it has 24 bytes.  Modelled from the spec: the utility is not in
the source file; on the wrong length it fails with a `HubError`. -/
def vec_to_u8_24 (v : Bytes) : Except HubError Bytes :=
  if v.length = TS_HASH_LENGTH then .ok v
  else .error { code := "bad_request.internal_error",
                message := "unable to convert vec to 24 bytes" }

/-- The `link_add_key` function from the source: the Adds Set key
`RootPrefix.User ‖ fid(4B) ‖ UserPostfix.LinkAdds ‖ type (8B zero-padded
when `padded`) ‖ target_fid(4B BE, optional)`, with the source's validation:
a target requires a non-empty type, and a non-empty type must be at most 8
bytes. -/
def link_add_key (fid : Nat) (link_body : LinkBody) (padded : Bool) : Except HubError Bytes :=
  if link_body.target.isSome && link_body.type.isEmpty then
    .error (HubError.validation_failure "targetId provided without type")
  else if !link_body.type.isEmpty &&
      (decide (link_body.type.length > LINK_TYPE_BYTE_SIZE) || link_body.type.length == 0) then
    .error (HubError.validation_failure
      "link type invalid - non-empty link type found with invalid length")
  else
    .ok (make_user_key fid ++ upLinkAdds ::
      ((if padded then resizeZero LINK_TYPE_BYTE_SIZE link_body.type else link_body.type) ++
        (match link_body.target with
         | none => []
         | some (Target.targetFid f) => make_fid_key (f % 2 ^ 32))))

/-- The `link_remove_key` function from the source: identical shape with the
`UserPostfix.LinkRemoves` postfix. -/
def link_remove_key (fid : Nat) (link_body : LinkBody) (padded : Bool) : Except HubError Bytes :=
  if link_body.target.isSome && link_body.type.isEmpty then
    .error (HubError.validation_failure "targetID provided without type")
  else if !link_body.type.isEmpty &&
      (decide (link_body.type.length > LINK_TYPE_BYTE_SIZE) || link_body.type.length == 0) then
    .error (HubError.validation_failure
      "link type invalid - non-empty link type found with invalid length")
  else
    .ok (make_user_key fid ++ upLinkRemoves ::
      ((if padded then resizeZero LINK_TYPE_BYTE_SIZE link_body.type else link_body.type) ++
        (match link_body.target with
         | none => []
         | some (Target.targetFid f) => make_fid_key (f % 2 ^ 32))))

/-- The `link_compact_state_add_key` function from the source: the
compact-state key `RootPrefix.User ‖ fid(4B) ‖
UserPostfix.LinkCompactStateMessage ‖ type(8B zero-padded)`. -/
def link_compact_state_add_key (fid : Nat) (link_type : Bytes) : Except HubError Bytes :=
  .ok (make_user_key fid ++ upLinkCompactState ::
    resizeZero LINK_TYPE_BYTE_SIZE link_type)

/-- The `make_add_key_padded` function from the source: unwraps data and
body, requires a `LinkBody`, and delegates to `link_add_key` with the given
padding flag. -/
def make_add_key_padded (m : Message) (padded : Bool) : Except HubError Bytes :=
  match m.data with
  | none => .error (HubError.invalid_parameter "invalid message data")
  | some d =>
    match d.body with
    | none => .error (HubError.invalid_parameter "invalid message data body")
    | some (Body.linkBody link_body) => link_add_key (d.fid % 2 ^ 32) link_body padded
    | some _ => .error (HubError.invalid_parameter "link body not specified")

/-- The `make_remove_key_padded` function from the source. -/
def make_remove_key_padded (m : Message) (padded : Bool) : Except HubError Bytes :=
  match m.data with
  | none => .error (HubError.invalid_parameter "invalid message data")
  | some d =>
    match d.body with
    | none => .error (HubError.invalid_parameter "invalid message data body")
    | some (Body.linkBody link_body) => link_remove_key (d.fid % 2 ^ 32) link_body padded
    | some _ => .error (HubError.invalid_parameter "link body not specified")

/-- The `make_add_key` capability from the source: the canonical (padded)
Adds Set key. -/
def make_add_key (m : Message) : Except HubError Bytes := make_add_key_padded m true

/-- The `make_remove_key` capability from the source: the canonical (padded)
Removes Set key. -/
def make_remove_key (m : Message) : Except HubError Bytes := make_remove_key_padded m true

/-- The `links_by_target_key` function from the source: the reverse-index key
`RootPrefix.LinksByTarget ‖ target_fid(4B BE) ‖ tsHash(24B, optional) ‖
owner_fid(4B BE, optional)`; owner fid 0 means "absent", and the source
rejects an owner fid without a tsHash and a tsHash without an owner fid. -/
def links_by_target_key (target : Target) (fid : Nat) (ts_hash : Option Bytes) :
    Except HubError Bytes :=
  if fid ≠ 0 && (ts_hash.isNone ||
      (match ts_hash with | some tsh => tsh.length == 0 | none => false)) then
    .error (HubError.validation_failure "fid provided without timestamp hash")
  else if ts_hash.isSome && fid == 0 then
    .error (HubError.validation_failure "timestamp hash provided without fid")
  else
    match target with
    | Target.targetFid target_fid =>
      .ok (rootLinksByTarget :: make_fid_key (target_fid % 2 ^ 32) ++
        (match ts_hash with
         | some timestamp_hash => timestamp_hash
         | none => []) ++
        (if fid > 0 then make_fid_key fid else []))

/-- The `secondary_index_key` function from the source: unwraps data, body
and target and returns the LinksByTarget key paired with the raw (unpadded)
type bytes stored as its value. -/
def secondary_index_key (ts_hash : Bytes) (m : Message) : Except HubError (Bytes × Bytes) :=
  match m.data with
  | none => .error (HubError.invalid_parameter "invalid message data")
  | some d =>
    match d.body with
    | none => .error (HubError.invalid_parameter "invalid message data body")
    | some (Body.linkBody link_body) =>
      match link_body.target with
      | none => .error (HubError.invalid_parameter "target ID not specified")
      | some target =>
        match links_by_target_key target (d.fid % 2 ^ 32) (some ts_hash) with
        | .error e => .error e
        | .ok target_key => .ok (target_key, link_body.type)
    | some _ => .error (HubError.invalid_parameter "link body not specified")

/-- The `make_compact_state_add_key` capability from the source: accepts
either a `LinkCompactStateBody` or a `LinkBody` and builds the compact-state
key from its type. -/
def make_compact_state_add_key (m : Message) : Except HubError Bytes :=
  match m.data with
  | none => .error (HubError.invalid_parameter "invalid message data")
  | some d =>
    match d.body with
    | none => .error (HubError.invalid_parameter "invalid message data body")
    | some (Body.linkCompactStateBody b) => link_compact_state_add_key (d.fid % 2 ^ 32) b.type
    | some (Body.linkBody link_body) => link_compact_state_add_key (d.fid % 2 ^ 32) link_body.type
    | some _ => .error (HubError.invalid_parameter "link_compact_body not specified")

/-! ### The KV store model and the merge path -/

/-- A stored KV value: secondary index entries hold raw bytes (tsHashes or
type strings); primary record entries hold the message itself (the wire
serialization is out of scope per the spec, so it is modelled as the
identity embedding). -/
inductive KVal where
  | raw (b : Bytes)
  | msg (m : Message)
deriving DecidableEq, Repr

/-- The state of the ordered KV store, as a map from keys to values. -/
def State := Bytes → Option KVal

/-- The empty store. -/
def emptyState : State := fun _ => none

/-- A `db.get` that expects raw bytes (secondary index reads). -/
def dbGet (st : State) (k : Bytes) : Option Bytes :=
  match st k with
  | some (KVal.raw b) => some b
  | _ => none

/-- A `txn.put` of raw bytes. -/
def putRaw (st : State) (k v : Bytes) : State :=
  fun k2 => if k2 = k then some (KVal.raw v) else st k2

/-- A `txn.put` of a primary message record. -/
def putMsg (st : State) (k : Bytes) (m : Message) : State :=
  fun k2 => if k2 = k then some (KVal.msg m) else st k2

/-- A `txn.delete`. -/
def del (st : State) (k : Bytes) : State :=
  fun k2 => if k2 = k then none else st k2

/-- Modelled from the spec: `get_message` — resolve a tsHash to the primary
message record `fid ‖ postfix ‖ tsHash`; `none` when the record is absent
(the source's repair path relies on this). -/
def get_message (st : State) (fid : Nat) (postfixByte : Nat) (tsh : Bytes) : Option Message :=
  match st (make_message_primary_key fid postfixByte tsh) with
  | some (KVal.msg mm) => some mm
  | _ => none

/-- Modelled from the spec: `message_compare` — the CRDT conflict comparator
of the store skeleton, ordering two (message type, tsHash) pairs by the
tuple (timestamp, Remove-beats-Add, hash).  The first 4 tsHash bytes are the
big-endian timestamp, the rest the hash, so byte order equals the spec's
tuple order.  Per the source's call sites, a positive result means the
first argument (the stored message) is the newer one: `get_merge_conflicts`
rejects with "message conflicts with a more recent remove" exactly when
this returns a positive value on (stored, incoming). -/
def message_compare (aType : Nat) (aTsHash : Bytes) (bType : Nat) (bTsHash : Bytes) : Int :=
  let tsc := bytesCompare (aTsHash.take 4) (bTsHash.take 4)
  if tsc ≠ 0 then tsc
  else if aType = remove_message_type ∧ bType = add_message_type then 1
  else if aType = add_message_type ∧ bType = remove_message_type then -1
  else bytesCompare (aTsHash.drop 4) (bTsHash.drop 4)

/-- One conflict probe of `get_merge_conflicts` (the source repeats this block
four times: padded/unpadded Removes/Adds Set keys): read the Set entry, and
on a hit compare the stored tsHash with the incoming message — strictly
newer stored rejects with `bad_request.conflict`, an equal tsHash rejects
with `bad_request.duplicate`, a stale stored message is resolved through its
primary record and recorded as a loser (a dangling entry whose primary is
missing is logged and skipped). -/
def check_conflict_at (st : State) (storedType : Nat) (key : Bytes) (desc : String)
    (m : Message) (tsh : Bytes) (conflicts : List Message) :
    Except HubError (List Message) :=
  match dbGet st key with
  | none => .ok conflicts
  | some storedTsh =>
    let cmp := message_compare storedType storedTsh (dataTypeOf m) tsh
    if cmp > 0 then .error { code := "bad_request.conflict", message := desc }
    else if cmp = 0 then
      .error { code := "bad_request.duplicate", message := "message has already been merged" }
    else
      match vec_to_u8_24 storedTsh with
      | .error e => .error e
      | .ok th24 =>
        match get_message st (fid32_of m) linkStorePostfixByte th24 with
        | some existing => .ok (conflicts ++ [existing])
        | none => .ok conflicts

/-- Modelled from the spec: `get_default_merge_conflicts` of the store
skeleton — probe the Removes Set and then the Adds Set at the canonical
(padded) keys for the incoming message's slot. -/
def get_default_merge_conflicts (st : State) (m : Message) (tsh : Bytes) :
    Except HubError (List Message) :=
  match make_remove_key m with
  | .error e => .error e
  | .ok removeKey =>
    match check_conflict_at st remove_message_type removeKey
        "message conflicts with a more recent remove" m tsh [] with
    | .error e => .error e
    | .ok c1 =>
      match make_add_key m with
      | .error e => .error e
      | .ok addKey =>
        check_conflict_at st add_message_type addKey
          "message conflicts with a more recent add" m tsh c1

/-- The `get_merge_conflicts` override from the source: the default (padded)
conflicts, then the same probes at the incorrectly padded (legacy, unpadded)
Removes and Adds Set keys. -/
def get_merge_conflicts (st : State) (m : Message) (tsh : Bytes) :
    Except HubError (List Message) :=
  match get_default_merge_conflicts st m tsh with
  | .error e => .error e
  | .ok c0 =>
    match make_remove_key_padded m false with
    | .error e => .error e
    | .ok removeKey =>
      match check_conflict_at st remove_message_type removeKey
          "message conflicts with a more recent remove" m tsh c0 with
      | .error e => .error e
      | .ok c1 =>
        match make_add_key_padded m false with
        | .error e => .error e
        | .ok addKey =>
          check_conflict_at st add_message_type addKey
            "message conflicts with a more recent add" m tsh c1

/-- The `find_merge_add_conflicts` capability from the source: links have no
additional add-conflict logic. -/
def find_merge_add_conflicts (_st : State) (_m : Message) : Except HubError Unit := .ok ()

/-- The `find_merge_remove_conflicts` capability from the source. -/
def find_merge_remove_conflicts (_st : State) (_m : Message) : Except HubError Unit := .ok ()

/-- The `build_secondary_indices` capability from the source: put the
LinksByTarget entry whose value is the raw unpadded type string. -/
def build_secondary_indices (st : State) (ts_hash : Bytes) (m : Message) :
    Except HubError State :=
  match secondary_index_key ts_hash m with
  | .error e => .error e
  | .ok (by_target_key, rtype) => .ok (putRaw st by_target_key rtype)

/-- The `delete_secondary_indices` capability from the source: delete the
incorrectly padded (legacy) Set key for the message's own kind, and the
LinksByTarget entry. -/
def delete_secondary_indices (st : State) (ts_hash : Bytes) (m : Message) :
    Except HubError State :=
  match secondary_index_key ts_hash m with
  | .error e => .error e
  | .ok (by_target_key, _) =>
    if is_add_type m then
      match make_add_key_padded m false with
      | .error e => .error e
      | .ok k => .ok (del (del st k) by_target_key)
    else if is_remove_type m then
      match make_remove_key_padded m false with
      | .error e => .error e
      | .ok k => .ok (del (del st k) by_target_key)
    else .ok (del st by_target_key)

/-- Modelled from the spec: the store skeleton's deletion of a conflict
loser — delete the primary record, the canonical (padded) Set entry of the
loser's own kind, and its secondary entries including the legacy unpadded
form. -/
def delete_message_txn (st : State) (c : Message) : Except HubError State :=
  match make_ts_hash c with
  | .error e => .error e
  | .ok tsh =>
    let st1 := del st (make_message_primary_key (fid32_of c) linkStorePostfixByte tsh)
    match (if is_add_type c then make_add_key c
           else if is_remove_type c then make_remove_key c
           else .error (HubError.invalid_parameter "invalid message type")) with
    | .error e => .error e
    | .ok setKey => delete_secondary_indices (del st1 setKey) tsh c

/-- Deletion of all conflict losers, in order, within the same batch. -/
def delete_all (st : State) : List Message → Except HubError State
  | [] => .ok st
  | c :: rest =>
    match delete_message_txn st c with
    | .error e => .error e
    | .ok st2 => delete_all st2 rest

/-- Modelled from the spec: the store skeleton's write of the merged
message — put the primary record, the canonical Set entry of its kind
pointing at its tsHash, and for a LinkAdd the LinksByTarget entry. -/
def put_message_txn (st : State) (m : Message) (tsh : Bytes) : Except HubError State :=
  let st1 := putMsg st (make_message_primary_key (fid32_of m) linkStorePostfixByte tsh) m
  if is_add_type m then
    match make_add_key m with
    | .error e => .error e
    | .ok k => build_secondary_indices (putRaw st1 k tsh) tsh m
  else
    match make_remove_key m with
    | .error e => .error e
    | .ok k => .ok (putRaw st1 k tsh)

/-- Modelled from the spec: the compact-state coverage check of the merge —
if a LinkCompactState entry exists for the message's (fid, type) and its
timestamp is newer, the message is discarded with the same outcome as a
conflict. -/
def compact_state_guard (st : State) (m : Message) (tsh : Bytes) : Except HubError Unit :=
  match make_compact_state_add_key m with
  | .error e => .error e
  | .ok ck =>
    match dbGet st ck with
    | some csTsh =>
      if bytesCompare (csTsh.take 4) (tsh.take 4) > 0 then
        .error { code := "bad_request.conflict",
                 message := "message conflicts with a more recent compact state" }
      else .ok ()
    | none => .ok ()

/-- Modelled from the spec: the store skeleton's merge of a validated
LinkAdd or LinkRemove message — derive the tsHash, check compact-state
coverage, discover conflicts (`get_merge_conflicts` from the source), and
apply the batch: delete all losers, then write the new records. -/
def merge_message (st : State) (m : Message) : Except HubError State :=
  if is_add_type m || is_remove_type m then
    match make_ts_hash m with
    | .error e => .error e
    | .ok tsh =>
      match compact_state_guard st m tsh with
      | .error e => .error e
      | .ok _ =>
        match (if is_add_type m then find_merge_add_conflicts st m
               else find_merge_remove_conflicts st m) with
        | .error e => .error e
        | .ok _ =>
          match get_merge_conflicts st m tsh with
          | .error e => .error e
          | .ok conflicts =>
            match delete_all st conflicts with
            | .error e => .error e
            | .ok st2 => put_message_txn st2 m tsh
  else .error (HubError.validation_failure "invalid message type")

/-- One merge attempt as a state transition: a rejected message (Conflict,
Duplicate, or any error) leaves the store unchanged, since the batch is
never committed. -/
def mergeStep (st : State) (m : Message) : State :=
  match merge_message st m with
  | .ok st2 => st2
  | .error _ => st

/-- Merging a sequence of messages in order, losers rejected as they
arise. -/
def mergeList (st : State) (l : List Message) : State := l.foldl mergeStep st

/-! ### The query surface -/

/-- The partial message built by `get_link_add` / `get_link_remove` in the
source: only fid, message type and link body are filled in, the rest is
`Default::default()`. -/
def partialLinkMessage (msgType : Nat) (fid : Nat) (t : Bytes) (target : Option Target) :
    Message :=
  { data := some { fid := fid, type := msgType, timestamp := 0,
                   body := some (Body.linkBody { type := t, target := target }) },
    hash := [], signatureScheme := 0 }

/-- Modelled from the spec: the store skeleton's `get_add` — build the
canonical (padded) Adds Set key, read the tsHash stored there and resolve it
into the primary message record; `Ok(None)` when the Set entry is absent or
its primary record is missing. -/
def store_get_add (st : State) (pm : Message) : Except HubError (Option Message) :=
  match make_add_key pm with
  | .error e => .error e
  | .ok addsKey =>
    match dbGet st addsKey with
    | none => .ok none
    | some tsh =>
      match vec_to_u8_24 tsh with
      | .error e => .error e
      | .ok th24 => .ok (get_message st (fid32_of pm) linkStorePostfixByte th24)

/-- Modelled from the spec: the store skeleton's `get_remove`. -/
def store_get_remove (st : State) (pm : Message) : Except HubError (Option Message) :=
  match make_remove_key pm with
  | .error e => .error e
  | .ok removesKey =>
    match dbGet st removesKey with
    | none => .ok none
    | some tsh =>
      match vec_to_u8_24 tsh with
      | .error e => .error e
      | .ok th24 => .ok (get_message st (fid32_of pm) linkStorePostfixByte th24)

/-- The `get_link_add` function from the source: probe the canonical
(padded) Adds Set key through the skeleton; when that yields `Ok(None)`,
probe the incorrectly padded (legacy, unpadded) key and resolve the tsHash
stored there into the primary record. -/
def get_link_add (st : State) (fid : Nat) (t : Bytes) (target : Option Target) :
    Except HubError (Option Message) :=
  let pm := partialLinkMessage linkAddType fid t target
  match store_get_add st pm with
  | .ok none =>
    match make_add_key_padded pm false with
    | .error e => .error e
    | .ok unpadded_key =>
      match dbGet st unpadded_key with
      | none => .ok none
      | some message_ts_hash =>
        match vec_to_u8_24 message_ts_hash with
        | .error e => .error e
        | .ok th24 => .ok (get_message st (fid32_of pm) linkStorePostfixByte th24)
  | result => result

/-- The `get_link_remove` function from the source, symmetric to
`get_link_add` over the Removes Set. -/
def get_link_remove (st : State) (fid : Nat) (t : Bytes) (target : Option Target) :
    Except HubError (Option Message) :=
  let pm := partialLinkMessage linkRemoveType fid t target
  match store_get_remove st pm with
  | .ok none =>
    match make_remove_key_padded pm false with
    | .error e => .error e
    | .ok unpadded_key =>
      match dbGet st unpadded_key with
      | none => .ok none
      | some message_ts_hash =>
        match vec_to_u8_24 message_ts_hash with
        | .error e => .error e
        | .ok th24 => .ok (get_message st (fid32_of pm) linkStorePostfixByte th24)
  | result => result

/-- A page of messages, mirroring `MessagesPage`: the fetched messages and
the optional continuation token (the last visited index key). -/
structure MessagesPage where
  messages : List Message
  nextPageToken : Option Bytes
deriving DecidableEq, Repr

/-- Modelled from the spec: the default page-size cap `PAGE_SIZE_MAX` (its
numeric value is not fixed by the source file). -/
def PAGE_SIZE_MAX : Nat := 1000

/-- An ordered snapshot of the KV store for range scans: the association
list enumerates the store's entries in ascending key order (the KV engine's
iteration order is lexicographic over keys). -/
abbrev DbSnapshot := List (Bytes × KVal)

/-- Modelled from the spec: the ordered-KV range iteration under a key
range start, beginning strictly after the page token when one is given;
index entries hold raw bytes. -/
def scan_range (db : DbSnapshot) (startKey : Bytes) (tok : Option Bytes) :
    List (Bytes × Bytes) :=
  db.filterMap fun kv =>
    match kv.2 with
    | KVal.raw v =>
      if startKey.isPrefixOf kv.1 &&
          (match tok with
           | none => true
           | some t => bytesCompare t kv.1 < 0) then
        some (kv.1, v)
      else none
    | _ => none

/-- Big-endian byte decoding, mirroring `u32::from_be_bytes` on the 4-byte
owner-fid suffix of a LinksByTarget key. -/
def bytesToNat (b : Bytes) : Nat := b.foldl (fun acc x => acc * 256 + x) 0

/-- The primary key reconstructed by `get_links_by_target`'s visitor from a
LinksByTarget index key: the tsHash sits right after the scan start key, the
owner fid in the following 4 bytes. -/
def reconstructPrimaryKey (startLen : Nat) (k : Bytes) : Bytes :=
  make_message_primary_key (bytesToNat ((k.drop (startLen + TS_HASH_LENGTH)).take 4))
    linkStorePostfixByte ((k.drop startLen).take TS_HASH_LENGTH)

/-- The visitor loop of `get_links_by_target` from the source: keep entries
whose stored value equals the requested type (all entries when the type is
empty), reconstruct each primary key from the key suffix, and stop with the
current key as the continuation token as soon as the collected count reaches
the page size. -/
def collect_links (t : Bytes) (startLen : Nat) (pageSize : Nat) :
    List (Bytes × Bytes) → List Bytes → List Bytes × Option Bytes
  | [], acc => (acc, none)
  | (k, v) :: rest, acc =>
    if t.isEmpty || v == t then
      let acc2 := acc ++ [reconstructPrimaryKey startLen k]
      if pageSize ≤ acc2.length then (acc2, some k)
      else collect_links t startLen pageSize rest acc2
    else collect_links t startLen pageSize rest acc

/-- Modelled from the spec: `get_many_messages_as_bytes` — batch-fetch the
primary records at the given keys, in order, failing when a record is
missing. -/
def get_many_messages (db : DbSnapshot) : List Bytes → Except HubError (List Message)
  | [] => .ok []
  | k :: rest =>
    match db.lookup k with
    | some (KVal.msg mm) =>
      match get_many_messages db rest with
      | .ok l => .ok (mm :: l)
      | .error e => .error e
    | _ => .error { code := "not_found", message := "could not get message" }

/-- The `get_links_by_target` function from the source: range-scan the
LinksByTarget index under the prefix for the target fid, filter by the
stored type value, reconstruct primary keys, batch-fetch the messages, and
return the continuation token exactly when the visitor stopped early. -/
def get_links_by_target (db : DbSnapshot) (target : Target) (t : Bytes)
    (page_size : Option Nat) (page_token : Option Bytes) :
    Except HubError MessagesPage :=
  match links_by_target_key target 0 none with
  | .error e => .error e
  | .ok startKey =>
    let entries := scan_range db startKey page_token
    let result := collect_links t startKey.length (page_size.getD PAGE_SIZE_MAX) entries []
    match get_many_messages db result.1 with
    | .error e => .error e
    | .ok msgs => .ok { messages := msgs, nextPageToken := result.2 }

/-- A point lookup of a primary message record in an ordered snapshot. -/
def lookupMsg (db : DbSnapshot) (k : Bytes) : Option Message :=
  match db.lookup k with
  | some (KVal.msg mm) => some mm
  | _ => none

/-- The scan start key used by `get_links_by_target`: the LinksByTarget key
of the bare target. -/
def lbt_start_key (tfid : Nat) : Bytes := rootLinksByTarget :: make_fid_key (tfid % 2 ^ 32)

/-- The index entries matching a `get_links_by_target` query: the scanned
entries whose stored value equals the requested type (all of them when the
type is empty). -/
def lbt_matching (db : DbSnapshot) (tfid : Nat) (t : Bytes) (tok : Option Bytes) :
    List (Bytes × Bytes) :=
  (scan_range db (lbt_start_key tfid) tok).filter fun e => t.isEmpty || e.2 == t

/-- Well-formedness of an optional stored tsHash: absent, or 24 bytes
long. -/
def opt24 : Option Bytes → Bool
  | some th => th.length == TS_HASH_LENGTH
  | none => true

/-! ### Definitions used to state the claimed properties -/

/-- A valid link message addressing the slot `(fid, t, tgt)`: Ed25519
signed, data present with the slot's fid, an add or remove type, a `u32`
timestamp, a link body with the slot's non-empty type string (at most 8
bytes) and target, a 20-byte hash, and an owner fid that does not truncate
to the unusable sentinel 0. -/
def ValidSlot (fid : Nat) (t : Bytes) (tgt : Nat) (m : Message) : Prop :=
  m.signatureScheme = ed25519Scheme ∧
  m.hash.length = 20 ∧
  fid % 2 ^ 32 ≠ 0 ∧
  t ≠ [] ∧
  t.length ≤ LINK_TYPE_BYTE_SIZE ∧
  (dataTypeOf m = linkAddType ∨ dataTypeOf m = linkRemoveType) ∧
  tsOf m < 2 ^ 32 ∧
  m.data = some { fid := fid, type := dataTypeOf m, timestamp := tsOf m,
                  body := some (Body.linkBody { type := t, target := some (Target.targetFid tgt) }) }

instance ValidSlot_decidable (fid : Nat) (t : Bytes) (tgt : Nat) (m : Message) :
    Decidable (ValidSlot fid t tgt m) := by
  unfold ValidSlot
  infer_instance

/-- The comparator applied to two full messages, with the stored message as
the first argument, as at the source's call sites. -/
def slotCompare (a b : Message) : Int :=
  message_compare (dataTypeOf a) (ts_hash_of a) (dataTypeOf b) (ts_hash_of b)

/-- The spec's tuple order, in its own words: `a` is newer than `b` when it
has the higher timestamp, or on a timestamp tie when it is the Remove
against an Add, or on a further tie when its 20-byte hash is
lexicographically higher. -/
def tuple_newer (a b : Message) : Prop :=
  tsOf a > tsOf b ∨
    (tsOf a = tsOf b ∧
      ((dataTypeOf a = linkRemoveType ∧ dataTypeOf b = linkAddType) ∨
        (dataTypeOf a = dataTypeOf b ∧ bytesCompare a.hash b.hash > 0)))

instance tuple_newer_decidable (a b : Message) : Decidable (tuple_newer a b) := by
  unfold tuple_newer
  infer_instance

/-- The winner of two conflicting messages under the comparator. -/
def max2 (a b : Message) : Message := if slotCompare a b > 0 then a else b

/-- The canonical (padded) Set key of a message's own kind, as a total
function (meaningful on valid add/remove messages). -/
def own_set_key_of (m : Message) : Bytes :=
  if is_add_type m then (make_add_key m).toOption.getD []
  else (make_remove_key m).toOption.getD []

/-- The LinksByTarget key of a message, as a total function. -/
def by_target_key_of (m : Message) : Bytes :=
  ((secondary_index_key (ts_hash_of m) m).toOption.getD ([], [])).1

/-- The primary record key of a message, as a total function. -/
def primary_key_of (m : Message) : Bytes :=
  make_message_primary_key (fid32_of m) linkStorePostfixByte (ts_hash_of m)

/-- The link body of a message, as a total function. -/
def link_body_of (m : Message) : LinkBody :=
  match (m.data.getD mdDefault).body with
  | some (Body.linkBody b) => b
  | _ => { type := [], target := none }

/-- The store state whose sole retained link message is `m`: the primary
record, the canonical Set entry of `m`'s kind pointing at its tsHash, and
for a LinkAdd the LinksByTarget entry holding the raw type string. -/
def slot_state (m : Message) : State := fun k =>
  if k = primary_key_of m then some (KVal.msg m)
  else if k = own_set_key_of m then some (KVal.raw (ts_hash_of m))
  else if is_add_type m = true ∧ k = by_target_key_of m then
    some (KVal.raw (link_body_of m).type)
  else none

/-- The four Set entries probed by `get_merge_conflicts` for an incoming
message, in probe order — (assumed stored message type, stored tsHash) for
the padded Removes, padded Adds, unpadded Removes and unpadded Adds keys —
keeping only the keys that hold an entry. -/
def probe_hits (st : State) (krp kap kru kau : Bytes) : List (Nat × Bytes) :=
  [(remove_message_type, dbGet st krp), (add_message_type, dbGet st kap),
   (remove_message_type, dbGet st kru), (add_message_type, dbGet st kau)].filterMap
    fun p => match p.2 with
      | some tsh => some (p.1, tsh)
      | none => none

/-- Resolution of a probed Set entry into its loser message, as performed by
`get_merge_conflicts`: look up the primary record of the stored tsHash. -/
def resolve_hit (st : State) (m : Message) (p : Nat × Bytes) : Option Message :=
  get_message st (fid32_of m) linkStorePostfixByte p.2

/-- Sequential execution of a list of conflict probes, as
`get_merge_conflicts` performs them: each probe is a (stored message type,
Set key, conflict description) triple, and the conflicts accumulate until a
probe rejects. -/
def run_checks (st : State) (m : Message) (tsh : Bytes) :
    List (Nat × Bytes × String) → List Message → Except HubError (List Message)
  | [], acc => .ok acc
  | (ty, key, desc) :: rest, acc =>
    match check_conflict_at st ty key desc m tsh acc with
    | .error e => .error e
    | .ok acc2 => run_checks st m tsh rest acc2

/-- The Set entries found by a list of probes: the (stored type, stored
tsHash) pairs at the probed keys that hold an entry, in probe order. -/
def spec_hits (st : State) (ps : List (Nat × Bytes × String)) : List (Nat × Bytes) :=
  ps.filterMap fun p =>
    match dbGet st p.2.1 with
    | some tsh => some (p.1, tsh)
    | none => none

/-- The optional target-fid suffix of an Adds/Removes Set key. -/
def targetSuffix : Option Target → Bytes
  | none => []
  | some (Target.targetFid f) => make_fid_key (f % 2 ^ 32)

/-- The Adds Set key of the slot `(fid, t, tgt)`, in padded or legacy
unpadded form. -/
def slot_add_key (fid : Nat) (t : Bytes) (tgt : Nat) (padded : Bool) : Bytes :=
  make_user_key (fid % 2 ^ 32) ++ upLinkAdds ::
    ((if padded then resizeZero LINK_TYPE_BYTE_SIZE t else t) ++ make_fid_key (tgt % 2 ^ 32))

/-- The Removes Set key of the slot `(fid, t, tgt)`. -/
def slot_remove_key (fid : Nat) (t : Bytes) (tgt : Nat) (padded : Bool) : Bytes :=
  make_user_key (fid % 2 ^ 32) ++ upLinkRemoves ::
    ((if padded then resizeZero LINK_TYPE_BYTE_SIZE t else t) ++ make_fid_key (tgt % 2 ^ 32))

/-- The LinksByTarget key for owner `fid`, target `tgt` and a tsHash. -/
def slot_by_target_key (fid : Nat) (tgt : Nat) (th : Bytes) : Bytes :=
  rootLinksByTarget :: make_fid_key (tgt % 2 ^ 32) ++ th ++ make_fid_key (fid % 2 ^ 32)

/-- The primary record key for owner `fid` and a tsHash. -/
def slot_primary_key (fid : Nat) (th : Bytes) : Bytes :=
  make_message_primary_key (fid % 2 ^ 32) linkStorePostfixByte th

/-- The compact-state key for owner `fid` and type `t`. -/
def slot_compact_key (fid : Nat) (t : Bytes) : Bytes :=
  make_user_key (fid % 2 ^ 32) ++ upLinkCompactState :: resizeZero LINK_TYPE_BYTE_SIZE t

/-! ### Byte-string order: basic lemmas -/

lemma bytesCompare_self (a : Bytes) : bytesCompare a a = 0 := by
  induction a with
  | nil => rfl
  | cons x xs ih => simp [bytesCompare, ih]

lemma bytesCompare_cases (a b : Bytes) :
    bytesCompare a b = -1 ∨ bytesCompare a b = 0 ∨ bytesCompare a b = 1 := by
  induction a generalizing b with
  | nil => cases b <;> simp [bytesCompare]
  | cons x xs ih =>
    cases b with
    | nil => simp [bytesCompare]
    | cons y ys =>
      simp only [bytesCompare]
      split
      · exact Or.inl rfl
      · split
        · exact Or.inr (Or.inr rfl)
        · exact ih ys

lemma bytesCompare_neg (a b : Bytes) : bytesCompare b a = -bytesCompare a b := by
  induction a generalizing b with
  | nil => cases b <;> simp [bytesCompare]
  | cons x xs ih =>
    cases b with
    | nil => simp [bytesCompare]
    | cons y ys =>
      simp only [bytesCompare]
      rcases Nat.lt_trichotomy x y with h | h | h
      · simp [h, Nat.not_lt.mpr (Nat.le_of_lt h), Nat.lt_irrefl]
      · subst h
        simp [Nat.lt_irrefl, ih]
      · simp [h, Nat.not_lt.mpr (Nat.le_of_lt h), Nat.lt_irrefl]

lemma bytesCompare_eq_zero_iff (a b : Bytes) (h : a.length = b.length) :
    bytesCompare a b = 0 ↔ a = b := by
  induction a generalizing b with
  | nil =>
    cases b with
    | nil => simp [bytesCompare]
    | cons y ys => simp at h
  | cons x xs ih =>
    cases b with
    | nil => simp at h
    | cons y ys =>
      simp only [bytesCompare]
      rcases Nat.lt_trichotomy x y with hxy | hxy | hxy
      · simp [hxy]
        omega
      · subst hxy
        simp only [List.length_cons, Nat.succ_inj] at h
        simp [Nat.lt_irrefl, ih ys h]
      · simp [hxy, Nat.not_lt.mpr (Nat.le_of_lt hxy)]
        omega

lemma bytesCompare_trans_pos {a b c : Bytes} (hab : bytesCompare a b > 0)
    (hbc : bytesCompare b c > 0) : bytesCompare a c > 0 := by
  induction a generalizing b c with
  | nil => cases b <;> simp [bytesCompare] at hab
  | cons x xs ih =>
    cases b with
    | nil => cases c <;> simp [bytesCompare] at hbc
    | cons y ys =>
      cases c with
      | nil => simp [bytesCompare]
      | cons z zs =>
        simp only [bytesCompare] at hab hbc ⊢
        rcases Nat.lt_trichotomy y z with hyz | hyz | hyz
        · simp [hyz] at hbc
        · subst hyz
          rcases Nat.lt_trichotomy x y with hxy | hxy | hxy
          · simp [hxy] at hab
          · subst hxy
            simp only [Nat.lt_irrefl, if_false] at hab hbc ⊢
            exact ih hab hbc
          · simp [Nat.not_lt.mpr (Nat.le_of_lt hxy), hxy]
        · rcases Nat.lt_trichotomy x y with hxy | hxy | hxy
          · simp [hxy] at hab
          · subst hxy
            simp [Nat.not_lt.mpr (Nat.le_of_lt hyz), hyz]
          · have hxz : z < x := Nat.lt_trans hyz hxy
            simp [Nat.not_lt.mpr (Nat.le_of_lt hxz), hxz]

lemma natCmp_eq_zero_iff (a b : Nat) : natCmp a b = 0 ↔ a = b := by
  unfold natCmp
  split
  · omega
  · split <;> omega

lemma natCmp_pos_iff (a b : Nat) : natCmp a b > 0 ↔ b < a := by
  unfold natCmp
  split
  · omega
  · split <;> omega

lemma natCmp_neg_iff (a b : Nat) : natCmp a b < 0 ↔ a < b := by
  unfold natCmp
  split
  · omega
  · split <;> omega

lemma beBytes_length (k n : Nat) : (beBytes k n).length = k := by
  induction k generalizing n with
  | zero => rfl
  | succ k ih => simp [beBytes, ih]

lemma lt_of_div_lt_div {P A B : Nat} (h : A / P < B / P) : A < B := by
  by_contra hc
  push_neg at hc
  exact absurd (Nat.div_le_div_right (c := P) hc) (by omega)

lemma natCmp_div_mod (P A B : Nat) :
    natCmp A B =
      if A / P < B / P then (-1 : Int)
      else if B / P < A / P then 1
      else natCmp (A % P) (B % P) := by
  rcases Nat.lt_trichotomy (A / P) (B / P) with h | h | h
  · have hAB : A < B := lt_of_div_lt_div h
    simp [h, natCmp, hAB]
  · have h1 := Nat.div_add_mod A P
    have h2 := Nat.div_add_mod B P
    rw [← h] at h2
    rw [h]
    simp only [Nat.lt_irrefl, if_false]
    have hlt : A < B ↔ A % P < B % P := by omega
    have heq : A = B ↔ A % P = B % P := by omega
    unfold natCmp
    by_cases h3 : A % P < B % P
    · simp [h3, hlt.mpr h3]
    · by_cases h4 : A % P = B % P
      · have h5 : ¬ A < B := fun hc => h3 (hlt.mp hc)
        simp [h3, h4, heq.mpr h4, h5]
      · have h5 : ¬ A < B := fun hc => h3 (hlt.mp hc)
        have h6 : ¬ A = B := fun hc => h4 (heq.mp hc)
        simp [h3, h4, h5, h6]
  · have hAB : B < A := lt_of_div_lt_div h
    have hn : ¬ A / P < B / P := by omega
    simp [hn, h, natCmp, Nat.lt_asymm hAB, Nat.ne_of_gt hAB]

lemma beBytes_compare (k a b : Nat) :
    bytesCompare (beBytes k a) (beBytes k b) = natCmp (a % 2 ^ (8 * k)) (b % 2 ^ (8 * k)) := by
  induction k generalizing a b with
  | zero => simp [beBytes, bytesCompare, natCmp, Nat.mod_one]
  | succ k ih =>
    have hP : (0 : Nat) < 2 ^ (8 * k) := Nat.pos_pow_of_pos _ (by norm_num)
    have hpow : 2 ^ (8 * (k + 1)) = 2 ^ (8 * k) * 2 ^ 8 := by
      rw [← pow_add]
      ring_nf
    have hA : a % (2 ^ (8 * k) * 2 ^ 8) / 2 ^ (8 * k) = a / 2 ^ (8 * k) % 2 ^ 8 :=
      Nat.mod_mul_right_div_self a _ _
    have hB : b % (2 ^ (8 * k) * 2 ^ 8) / 2 ^ (8 * k) = b / 2 ^ (8 * k) % 2 ^ 8 :=
      Nat.mod_mul_right_div_self b _ _
    have hAm : a % (2 ^ (8 * k) * 2 ^ 8) % 2 ^ (8 * k) = a % 2 ^ (8 * k) :=
      Nat.mod_mod_of_dvd a ⟨2 ^ 8, rfl⟩
    have hBm : b % (2 ^ (8 * k) * 2 ^ 8) % 2 ^ (8 * k) = b % 2 ^ (8 * k) :=
      Nat.mod_mod_of_dvd b ⟨2 ^ 8, rfl⟩
    have h256 : (2 : Nat) ^ 8 = 256 := by norm_num
    rw [hpow, natCmp_div_mod (2 ^ (8 * k)) _ _, hA, hB, hAm, hBm, h256]
    simp only [beBytes, bytesCompare]
    rw [ih (a % 2 ^ (8 * k)) (b % 2 ^ (8 * k)),
      Nat.mod_mod_of_dvd a dvd_rfl, Nat.mod_mod_of_dvd b dvd_rfl]

lemma beBytes_inj {k a b : Nat} (h : beBytes k a = beBytes k b) :
    a % 2 ^ (8 * k) = b % 2 ^ (8 * k) := by
  have := beBytes_compare k a b
  rw [h, bytesCompare_self] at this
  exact (natCmp_eq_zero_iff _ _).mp this.symm

/-! ### Key codec claims -/

lemma link_add_key_ok_iff (fid : Nat) (body : LinkBody) (padded : Bool) :
    (∃ k, link_add_key fid body padded = Except.ok k) ↔
      ((body.target.isSome = true → body.type ≠ []) ∧
        (body.type ≠ [] → body.type.length ≤ LINK_TYPE_BYTE_SIZE)) := by
  rcases body with ⟨t, tgt⟩
  unfold link_add_key
  by_cases ht : t = []
  · subst ht
    cases tgt with
    | none => simp
    | some x => simp
  · have hne : t.isEmpty = false := by simpa [List.isEmpty_iff] using ht
    have hnz : t.length ≠ 0 := by simpa [List.length_eq_zero] using ht
    by_cases hlen : t.length ≤ LINK_TYPE_BYTE_SIZE
    · simp [hne, ht, hlen, Nat.not_lt.mpr hlen, hnz]
    · simp [hne, ht, hlen, Nat.lt_of_not_le hlen, hnz]

lemma link_add_key_error_code (fid : Nat) (body : LinkBody) (padded : Bool) (e : HubError)
    (h : link_add_key fid body padded = Except.error e) :
    e.code = "bad_request.validation_failure" := by
  unfold link_add_key at h
  split at h
  · cases h
    rfl
  · split at h
    · cases h
      rfl
    · cases h

lemma link_remove_key_ok_iff (fid : Nat) (body : LinkBody) (padded : Bool) :
    (∃ k, link_remove_key fid body padded = Except.ok k) ↔
      ((body.target.isSome = true → body.type ≠ []) ∧
        (body.type ≠ [] → body.type.length ≤ LINK_TYPE_BYTE_SIZE)) := by
  rcases body with ⟨t, tgt⟩
  unfold link_remove_key
  by_cases ht : t = []
  · subst ht
    cases tgt with
    | none => simp
    | some x => simp
  · have hne : t.isEmpty = false := by simpa [List.isEmpty_iff] using ht
    have hnz : t.length ≠ 0 := by simpa [List.length_eq_zero] using ht
    by_cases hlen : t.length ≤ LINK_TYPE_BYTE_SIZE
    · simp [hne, ht, hlen, Nat.not_lt.mpr hlen, hnz]
    · simp [hne, ht, hlen, Nat.lt_of_not_le hlen, hnz]

lemma link_remove_key_error_code (fid : Nat) (body : LinkBody) (padded : Bool) (e : HubError)
    (h : link_remove_key fid body padded = Except.error e) :
    e.code = "bad_request.validation_failure" := by
  unfold link_remove_key at h
  split at h
  · cases h
    rfl
  · split at h
    · cases h
      rfl
    · cases h

/-- C5: Adds/Removes Set key encoding fails with `ValidationFailure` exactly
at the spec's boundaries — for every `LinkBody` and padding flag, encoding
succeeds iff a present target comes with a non-empty type and a non-empty
type has byte length at most 8 (so lengths 1 and 8 succeed while length 0
with a target and length 9 fail), and every encoding failure carries the
`bad_request.validation_failure` code. -/
theorem C5_set_key_validation (fid : Nat) (body : LinkBody) (padded : Bool) :
    ((∃ k, link_add_key fid body padded = Except.ok k) ↔
      ((body.target.isSome = true → body.type ≠ []) ∧
        (body.type ≠ [] → body.type.length ≤ LINK_TYPE_BYTE_SIZE))) ∧
    (∀ e, link_add_key fid body padded = Except.error e →
      e.code = "bad_request.validation_failure") ∧
    ((∃ k, link_remove_key fid body padded = Except.ok k) ↔
      ((body.target.isSome = true → body.type ≠ []) ∧
        (body.type ≠ [] → body.type.length ≤ LINK_TYPE_BYTE_SIZE))) ∧
    (∀ e, link_remove_key fid body padded = Except.error e →
      e.code = "bad_request.validation_failure") :=
  ⟨link_add_key_ok_iff fid body padded,
   fun e h => link_add_key_error_code fid body padded e h,
   link_remove_key_ok_iff fid body padded,
   fun e h => link_remove_key_error_code fid body padded e h⟩

/-- C5 witness: at the boundaries, a 1-byte and an 8-byte type succeed, an
empty type with a target fails and a 9-byte type fails, all with the
validation-failure code. -/
theorem C5_set_key_validation_witness :
    (∃ k, link_add_key 1 ⟨[97], some (Target.targetFid 2)⟩ true = Except.ok k) ∧
    (∃ k, link_add_key 1 ⟨[97, 98, 99, 100, 101, 102, 103, 104],
      some (Target.targetFid 2)⟩ true = Except.ok k) ∧
    (∀ e, link_add_key 1 ⟨[], some (Target.targetFid 2)⟩ true =
      Except.error e → e.code = "bad_request.validation_failure") ∧
    (¬ ∃ k, link_add_key 1 ⟨[], some (Target.targetFid 2)⟩ true = Except.ok k) ∧
    (¬ ∃ k, link_add_key 1 ⟨[97, 98, 99, 100, 101, 102, 103, 104, 105],
      some (Target.targetFid 2)⟩ true = Except.ok k) := by
  refine ⟨?_, ?_, ?_, ?_, ?_⟩
  · exact (C5_set_key_validation 1 _ true).1.mpr (by decide)
  · exact (C5_set_key_validation 1 _ true).1.mpr (by decide)
  · exact (C5_set_key_validation 1 _ true).2.1
  · intro hc
    have := (C5_set_key_validation 1 _ true).1.mp hc
    revert this
    decide
  · intro hc
    have := (C5_set_key_validation 1 _ true).1.mp hc
    revert this
    decide

/-- C8: LinksByTarget key construction rejects an owner fid without a tsHash
and a tsHash without an owner fid, with `ValidationFailure`; with both
supplied it lays the key out as
`RootPrefix.LinksByTarget ‖ target_fid(4B BE) ‖ tsHash(24B) ‖
owner_fid(4B BE)`, and with both absent it succeeds as the bare target
prefix. -/
theorem C8_links_by_target_key_validation (tfid fid : Nat) (h : Bytes)
    (hlen : h.length = TS_HASH_LENGTH) :
    (fid ≠ 0 →
      ∃ e, links_by_target_key (Target.targetFid tfid) fid none = Except.error e ∧
        e.code = "bad_request.validation_failure") ∧
    (fid = 0 →
      ∃ e, links_by_target_key (Target.targetFid tfid) fid (some h) = Except.error e ∧
        e.code = "bad_request.validation_failure") ∧
    (fid ≠ 0 →
      links_by_target_key (Target.targetFid tfid) fid (some h) =
        Except.ok (rootLinksByTarget :: make_fid_key (tfid % 2 ^ 32) ++ h ++
          make_fid_key fid)) ∧
    (links_by_target_key (Target.targetFid tfid) 0 none =
      Except.ok (rootLinksByTarget :: make_fid_key (tfid % 2 ^ 32))) := by
  have hne : h.length ≠ 0 := by
    rw [hlen]
    decide
  refine ⟨?_, ?_, ?_, ?_⟩
  · intro hfid
    have heq : links_by_target_key (Target.targetFid tfid) fid none =
        Except.error (HubError.validation_failure "fid provided without timestamp hash") := by
      unfold links_by_target_key
      simp [hfid]
    exact ⟨_, heq, rfl⟩
  · intro hfid
    subst hfid
    have heq : links_by_target_key (Target.targetFid tfid) 0 (some h) =
        Except.error (HubError.validation_failure "timestamp hash provided without fid") := by
      unfold links_by_target_key
      simp
    exact ⟨_, heq, rfl⟩
  · intro hfid
    unfold links_by_target_key
    have hpos : 0 < fid := Nat.pos_of_ne_zero hfid
    simp [hfid, hne, hpos]
  · unfold links_by_target_key
    simp

/-- C8 witness: concrete instantiation at a 24-byte tsHash. -/
theorem C8_links_by_target_key_validation_witness :
    (List.replicate 24 7 : Bytes).length = TS_HASH_LENGTH ∧
    (∃ e, links_by_target_key (Target.targetFid 9) 5 none = Except.error e ∧
      e.code = "bad_request.validation_failure") ∧
    links_by_target_key (Target.targetFid 9) 5 (some (List.replicate 24 7)) =
      Except.ok (rootLinksByTarget :: make_fid_key 9 ++ List.replicate 24 7 ++
        make_fid_key 5) := by
  have h := C8_links_by_target_key_validation 9 5 (List.replicate 24 7) (by decide)
  exact ⟨by decide, h.1 (by decide), h.2.2.1 (by decide)⟩

lemma resizeZero_of_le {t : Bytes} (h : t.length ≤ LINK_TYPE_BYTE_SIZE) :
    resizeZero LINK_TYPE_BYTE_SIZE t = t ++ List.replicate (LINK_TYPE_BYTE_SIZE - t.length) 0 := by
  unfold resizeZero
  rw [List.take_of_length_le h]

/-- C9: for a valid link body, the padded and unpadded Adds (and Removes)
Set keys coincide exactly when the type string is 8 bytes long; any shorter
non-empty type yields a padded key that differs from the unpadded one only
by the trailing zero padding inserted before the optional target suffix, so
the two forms address distinct KV entries. -/
theorem C9_padded_unpadded_keys (fid : Nat) (t : Bytes) (tgt : Option Target)
    (ht : t ≠ []) (hlen : t.length ≤ LINK_TYPE_BYTE_SIZE) :
    link_add_key fid { type := t, target := tgt } true =
      Except.ok (make_user_key fid ++ upLinkAdds ::
        (t ++ List.replicate (LINK_TYPE_BYTE_SIZE - t.length) 0 ++ targetSuffix tgt)) ∧
    link_add_key fid { type := t, target := tgt } false =
      Except.ok (make_user_key fid ++ upLinkAdds :: (t ++ targetSuffix tgt)) ∧
    link_remove_key fid { type := t, target := tgt } true =
      Except.ok (make_user_key fid ++ upLinkRemoves ::
        (t ++ List.replicate (LINK_TYPE_BYTE_SIZE - t.length) 0 ++ targetSuffix tgt)) ∧
    link_remove_key fid { type := t, target := tgt } false =
      Except.ok (make_user_key fid ++ upLinkRemoves :: (t ++ targetSuffix tgt)) ∧
    ((make_user_key fid ++ upLinkAdds ::
        (t ++ List.replicate (LINK_TYPE_BYTE_SIZE - t.length) 0 ++ targetSuffix tgt)) =
      (make_user_key fid ++ upLinkAdds :: (t ++ targetSuffix tgt)) ↔
        t.length = LINK_TYPE_BYTE_SIZE) := by
  have hne : t.isEmpty = false := by simpa [List.isEmpty_iff] using ht
  have hnz : t.length ≠ 0 := by simpa [List.length_eq_zero] using ht
  have hnot : ¬ t.length > LINK_TYPE_BYTE_SIZE := Nat.not_lt.mpr hlen
  refine ⟨?_, ?_, ?_, ?_, ?_⟩
  · unfold link_add_key
    simp [hne, hnz, hnot, resizeZero_of_le hlen, LinkBody.target, Target.targetFid]
    cases tgt with
    | none => simp [targetSuffix]
    | some x =>
      cases x with
      | targetFid f => simp [targetSuffix]
  · unfold link_add_key
    simp [hne, hnz, hnot]
    cases tgt with
    | none => simp [targetSuffix]
    | some x =>
      cases x with
      | targetFid f => simp [targetSuffix]
  · unfold link_remove_key
    simp [hne, hnz, hnot, resizeZero_of_le hlen]
    cases tgt with
    | none => simp [targetSuffix]
    | some x =>
      cases x with
      | targetFid f => simp [targetSuffix]
  · unfold link_remove_key
    simp [hne, hnz, hnot]
    cases tgt with
    | none => simp [targetSuffix]
    | some x =>
      cases x with
      | targetFid f => simp [targetSuffix]
  · constructor
    · intro heq
      have h2 := List.append_cancel_left heq
      injection h2 with h2a h2b
      have h3 := congrArg List.length h2b
      simp [List.length_append, List.length_replicate] at h3
      omega
    · intro heq
      rw [heq]
      simp

/-- C9 witness: for the 6-byte type "follow" the two key forms differ, and
for an 8-byte type they coincide. -/
theorem C9_padded_unpadded_keys_witness :
    ([102, 111, 108, 108, 111, 119] : Bytes) ≠ [] ∧
    link_add_key 6833 ⟨[102, 111, 108, 108, 111, 119], some (Target.targetFid 1)⟩ true =
      Except.ok (make_user_key 6833 ++ upLinkAdds ::
        ([102, 111, 108, 108, 111, 119] ++ List.replicate 2 0 ++
          targetSuffix (some (Target.targetFid 1)))) ∧
    ¬ ((make_user_key 6833 ++ upLinkAdds ::
        ([102, 111, 108, 108, 111, 119] ++ List.replicate 2 0 ++
          targetSuffix (some (Target.targetFid 1)))) =
      (make_user_key 6833 ++ upLinkAdds ::
        ([102, 111, 108, 108, 111, 119] ++ targetSuffix (some (Target.targetFid 1))))) := by
  have h := C9_padded_unpadded_keys 6833 [102, 111, 108, 108, 111, 119]
    (some (Target.targetFid 1)) (by decide) (by decide)
  refine ⟨by decide, ?_, ?_⟩
  · have := h.1
    simpa using this
  · decide

/-- C10: owner fid 0 is an unusable sentinel — for a message with a link
body and a target whose fid truncates to 0 in 32 bits,
`build_secondary_indices` fails with `ValidationFailure` (the LinksByTarget
key treats owner fid 0 as absent and rejects the supplied tsHash), and for a
message with a link body but no target it fails with `InvalidParameter`. -/
theorem C10_owner_fid_zero_sentinel (st : State) (th : Bytes) (m : Message)
    (d : MessageData) (b : LinkBody)
    (hd : m.data = some d) (hb : d.body = some (Body.linkBody b)) :
    (b.target.isSome = true → d.fid % 2 ^ 32 = 0 →
      ∃ e, build_secondary_indices st th m = Except.error e ∧
        e.code = "bad_request.validation_failure") ∧
    (b.target = none →
      ∃ e, build_secondary_indices st th m = Except.error e ∧
        e.code = "bad_request.invalid_param") := by
  constructor
  · intro htgt hfid
    rcases Option.isSome_iff_exists.mp htgt with ⟨tgt, htgt2⟩
    have heq : build_secondary_indices st th m =
        Except.error (HubError.validation_failure "timestamp hash provided without fid") := by
      unfold build_secondary_indices secondary_index_key links_by_target_key
      rw [hd]
      simp only [hb, htgt2]
      have hfid2 : d.fid % 4294967296 = 0 := by
        have : (2 : Nat) ^ 32 = 4294967296 := by norm_num
        rw [← this]
        exact hfid
      cases tgt with
      | targetFid f => simp [hfid, hfid2]
    exact ⟨_, heq, rfl⟩
  · intro htgt
    have heq : build_secondary_indices st th m =
        Except.error (HubError.invalid_parameter "target ID not specified") := by
      unfold build_secondary_indices secondary_index_key
      rw [hd]
      simp [hb, htgt]
    exact ⟨_, heq, rfl⟩

/-! ### The CRDT comparator (C3) -/

lemma take_append_len {l1 l2 : Bytes} {n : Nat} (h : l1.length = n) :
    (l1 ++ l2).take n = l1 := by
  subst h
  exact List.take_left l1 l2

lemma drop_append_len {l1 l2 : Bytes} {n : Nat} (h : l1.length = n) :
    (l1 ++ l2).drop n = l2 := by
  subst h
  exact List.drop_left l1 l2

lemma ts_hash_take (m : Message) : (ts_hash_of m).take 4 = beBytes 4 (tsOf m) :=
  take_append_len (beBytes_length 4 (tsOf m))

lemma ts_hash_drop (m : Message) : (ts_hash_of m).drop 4 = m.hash :=
  drop_append_len (beBytes_length 4 (tsOf m))

lemma slotCompare_ts (a b : Message) (hta : tsOf a < 2 ^ 32) (htb : tsOf b < 2 ^ 32) :
    bytesCompare ((ts_hash_of a).take 4) ((ts_hash_of b).take 4) = natCmp (tsOf a) (tsOf b) := by
  rw [ts_hash_take, ts_hash_take, beBytes_compare]
  have h32 : (2 : Nat) ^ (8 * 4) = 2 ^ 32 := by norm_num
  rw [h32, Nat.mod_eq_of_lt hta, Nat.mod_eq_of_lt htb]

lemma slotCompare_unfolded (a b : Message) (hta : tsOf a < 2 ^ 32) (htb : tsOf b < 2 ^ 32) :
    slotCompare a b =
      (if natCmp (tsOf a) (tsOf b) ≠ 0 then natCmp (tsOf a) (tsOf b)
       else if dataTypeOf a = remove_message_type ∧ dataTypeOf b = add_message_type then 1
       else if dataTypeOf a = add_message_type ∧ dataTypeOf b = remove_message_type then -1
       else bytesCompare a.hash b.hash) := by
  unfold slotCompare message_compare
  rw [slotCompare_ts a b hta htb, ts_hash_drop, ts_hash_drop]

lemma slotCompare_char (a b : Message)
    (ha20 : a.hash.length = 20) (hb20 : b.hash.length = 20)
    (hta : tsOf a < 2 ^ 32) (htb : tsOf b < 2 ^ 32)
    (hka : dataTypeOf a = linkAddType ∨ dataTypeOf a = linkRemoveType)
    (hkb : dataTypeOf b = linkAddType ∨ dataTypeOf b = linkRemoveType) :
    (slotCompare a b > 0 ↔ tuple_newer a b) ∧
    (slotCompare a b = 0 ↔
      (tsOf a = tsOf b ∧ dataTypeOf a = dataTypeOf b ∧ a.hash = b.hash)) ∧
    (slotCompare a b < 0 ↔ tuple_newer b a) := by
  have hmc := slotCompare_unfolded a b hta htb
  have hlen : a.hash.length = b.hash.length := by rw [ha20, hb20]
  have hz := bytesCompare_eq_zero_iff a.hash b.hash hlen
  have hneg := bytesCompare_neg a.hash b.hash
  have hcases := bytesCompare_cases a.hash b.hash
  rcases Nat.lt_trichotomy (tsOf a) (tsOf b) with hts | hts | hts
  · have h1 : natCmp (tsOf a) (tsOf b) = -1 := by
      unfold natCmp
      simp [hts]
    have hval : slotCompare a b = -1 := by
      rw [hmc, h1]
      norm_num
    rw [hval]
    refine ⟨⟨fun h => by omega, fun h => ?_⟩, ⟨fun h => by omega, fun h => by omega⟩,
      ⟨fun _ => Or.inl hts, fun _ => by norm_num⟩⟩
    · exfalso
      rcases h with h | ⟨h, _⟩ <;> omega
  · have h1 : natCmp (tsOf a) (tsOf b) = 0 := (natCmp_eq_zero_iff _ _).mpr hts
    have hnn : ¬ (natCmp (tsOf a) (tsOf b) ≠ 0) := by
      rw [h1]
      norm_num
    rcases hka with hka | hka <;> rcases hkb with hkb | hkb
    · -- both adds
      have hn1 : ¬ (dataTypeOf a = remove_message_type ∧ dataTypeOf b = add_message_type) := by
        rintro ⟨h2, _⟩
        rw [hka] at h2
        simp [linkAddType, remove_message_type, linkRemoveType] at h2
      have hn2 : ¬ (dataTypeOf a = add_message_type ∧ dataTypeOf b = remove_message_type) := by
        rintro ⟨_, h3⟩
        rw [hkb] at h3
        simp [linkAddType, remove_message_type, linkRemoveType] at h3
      have hval : slotCompare a b = bytesCompare a.hash b.hash := by
        rw [hmc, if_neg hnn, if_neg hn1, if_neg hn2]
      rw [hval]
      refine ⟨⟨fun h => Or.inr ⟨hts, Or.inr ⟨by rw [hka, hkb], h⟩⟩, ?_⟩,
        ⟨fun h => ⟨hts, by rw [hka, hkb], hz.mp h⟩, fun h => hz.mpr h.2.2⟩,
        ⟨fun h => Or.inr ⟨hts.symm, Or.inr ⟨by rw [hka, hkb], by omega⟩⟩, ?_⟩⟩
      · rintro (h | ⟨_, (⟨h2, h3⟩ | ⟨_, h⟩)⟩)
        · omega
        · rw [hka] at h2
          simp [linkAddType, linkRemoveType] at h2
        · exact h
      · rintro (h | ⟨_, (⟨h2, h3⟩ | ⟨_, h⟩)⟩)
        · omega
        · rw [hkb] at h2
          simp [linkAddType, linkRemoveType] at h2
        · omega
    · -- a add, b remove
      have hn1 : ¬ (dataTypeOf a = remove_message_type ∧ dataTypeOf b = add_message_type) := by
        rintro ⟨h2, _⟩
        rw [hka] at h2
        simp [linkAddType, remove_message_type, linkRemoveType] at h2
      have hval : slotCompare a b = -1 := by
        rw [hmc, if_neg hnn, if_neg hn1, if_pos ⟨hka, hkb⟩]
      rw [hval]
      refine ⟨⟨fun h => by omega, ?_⟩, ⟨fun h => by omega, fun h => ?_⟩,
        ⟨fun _ => Or.inr ⟨hts.symm, Or.inl ⟨hkb, hka⟩⟩, fun _ => by norm_num⟩⟩
      · rintro (h | ⟨_, (⟨h2, h3⟩ | ⟨h2, h⟩)⟩)
        · omega
        · rw [hka] at h2
          simp [linkAddType, linkRemoveType] at h2
        · rw [hka, hkb] at h2
          simp [linkAddType, linkRemoveType] at h2
      · rcases h with ⟨_, h2, _⟩
        rw [hka, hkb] at h2
        simp [linkAddType, linkRemoveType] at h2
    · -- a remove, b add
      have hval : slotCompare a b = 1 := by
        rw [hmc, if_neg hnn, if_pos ⟨hka, hkb⟩]
      rw [hval]
      refine ⟨⟨fun _ => Or.inr ⟨hts, Or.inl ⟨hka, hkb⟩⟩, fun _ => by norm_num⟩,
        ⟨fun h => by omega, fun h => ?_⟩, ⟨fun h => by omega, ?_⟩⟩
      · rcases h with ⟨_, h2, _⟩
        rw [hka, hkb] at h2
        simp [linkAddType, linkRemoveType] at h2
      · rintro (h | ⟨_, (⟨h2, h3⟩ | ⟨h2, h⟩)⟩)
        · omega
        · rw [hka] at h3
          simp [linkAddType, linkRemoveType] at h3
        · rw [hka, hkb] at h2
          simp [linkAddType, linkRemoveType] at h2
    · -- both removes
      have hn1 : ¬ (dataTypeOf a = remove_message_type ∧ dataTypeOf b = add_message_type) := by
        rintro ⟨_, h3⟩
        rw [hkb] at h3
        simp [linkAddType, add_message_type, linkRemoveType] at h3
      have hn2 : ¬ (dataTypeOf a = add_message_type ∧ dataTypeOf b = remove_message_type) := by
        rintro ⟨h2, _⟩
        rw [hka] at h2
        simp [linkAddType, add_message_type, linkRemoveType] at h2
      have hval : slotCompare a b = bytesCompare a.hash b.hash := by
        rw [hmc, if_neg hnn, if_neg hn1, if_neg hn2]
      rw [hval]
      refine ⟨⟨fun h => Or.inr ⟨hts, Or.inr ⟨by rw [hka, hkb], h⟩⟩, ?_⟩,
        ⟨fun h => ⟨hts, by rw [hka, hkb], hz.mp h⟩, fun h => hz.mpr h.2.2⟩,
        ⟨fun h => Or.inr ⟨hts.symm, Or.inr ⟨by rw [hka, hkb], by omega⟩⟩, ?_⟩⟩
      · rintro (h | ⟨_, (⟨h2, h3⟩ | ⟨_, h⟩)⟩)
        · omega
        · rw [hkb] at h3
          simp [linkAddType, linkRemoveType] at h3
        · exact h
      · rintro (h | ⟨_, (⟨h2, h3⟩ | ⟨_, h⟩)⟩)
        · omega
        · rw [hka] at h3
          simp [linkAddType, linkRemoveType] at h3
        · omega
  · have h1 : natCmp (tsOf a) (tsOf b) = 1 := by
      unfold natCmp
      have h2 : ¬ tsOf a < tsOf b := by omega
      have h3 : tsOf a ≠ tsOf b := by omega
      simp [h2, h3]
    have hval : slotCompare a b = 1 := by
      rw [hmc, h1]
      norm_num
    rw [hval]
    refine ⟨⟨fun _ => Or.inl hts, fun _ => by norm_num⟩,
      ⟨fun h => by omega, fun h => by omega⟩, ⟨fun h => by omega, fun h => ?_⟩⟩
    exfalso
    rcases h with h | ⟨h, _⟩ <;> omega

lemma tuple_newer_trans {a b c : Message} (hab : tuple_newer a b) (hbc : tuple_newer b c) :
    tuple_newer a c := by
  unfold tuple_newer at *
  rcases hab with h1 | ⟨hts1, h1⟩
  · rcases hbc with h2 | ⟨hts2, h2⟩
    · exact Or.inl (by omega)
    · exact Or.inl (by omega)
  · rcases hbc with h2 | ⟨hts2, h2⟩
    · exact Or.inl (by omega)
    · refine Or.inr ⟨by omega, ?_⟩
      rcases h1 with ⟨ha6, hb5⟩ | ⟨hk1, hh1⟩
      · rcases h2 with ⟨hb6, hc5⟩ | ⟨hk2, hh2⟩
        · rw [hb5] at hb6
          simp [linkAddType, linkRemoveType] at hb6
        · exact Or.inl ⟨ha6, by omega⟩
      · rcases h2 with ⟨hb6, hc5⟩ | ⟨hk2, hh2⟩
        · exact Or.inl ⟨by omega, hc5⟩
        · exact Or.inr ⟨by omega, bytesCompare_trans_pos hh1 hh2⟩

/-- C3 counterexample: the claim "the comparator returns a positive value
exactly when B (the incoming message) is newer" fails at a concrete input —
with A a LinkRemove at timestamp 2 and B a LinkAdd at timestamp 1, the
comparator applied to (A stored, B incoming) as at the source's call sites
returns a positive value although B is strictly older than A under the
tuple order. -/
theorem C3_counterexample :
    slotCompare
        ⟨some ⟨1, 6, 2, some (Body.linkBody ⟨[102], some (Target.targetFid 9)⟩)⟩,
         List.replicate 20 3, 1⟩
        ⟨some ⟨1, 5, 1, some (Body.linkBody ⟨[102], some (Target.targetFid 9)⟩)⟩,
         List.replicate 20 4, 1⟩ > 0 ∧
    ¬ tuple_newer
        ⟨some ⟨1, 5, 1, some (Body.linkBody ⟨[102], some (Target.targetFid 9)⟩)⟩,
         List.replicate 20 4, 1⟩
        ⟨some ⟨1, 6, 2, some (Body.linkBody ⟨[102], some (Target.targetFid 9)⟩)⟩,
         List.replicate 20 3, 1⟩ := by
  constructor
  · decide
  · decide

/-- C3 (amended): the comparator, applied to (A stored, B incoming) as at
the source's call sites, returns a positive value exactly when A — the
stored message — is newer under the tuple order (higher timestamp, then
Remove over Add, then higher hash), a negative value exactly when B is
newer, and 0 exactly when the two agree on timestamp, add/remove kind and
hash; the tuple order is transitive and total, hence a strict total order
on distinct (timestamp, kind, hash) triples. -/
theorem C3_comparator_tuple_order (a b c : Message)
    (ha20 : a.hash.length = 20) (hb20 : b.hash.length = 20)
    (hta : tsOf a < 2 ^ 32) (htb : tsOf b < 2 ^ 32)
    (hka : dataTypeOf a = linkAddType ∨ dataTypeOf a = linkRemoveType)
    (hkb : dataTypeOf b = linkAddType ∨ dataTypeOf b = linkRemoveType) :
    (slotCompare a b > 0 ↔ tuple_newer a b) ∧
    (slotCompare a b < 0 ↔ tuple_newer b a) ∧
    (slotCompare a b = 0 ↔
      (tsOf a = tsOf b ∧ dataTypeOf a = dataTypeOf b ∧ a.hash = b.hash)) ∧
    (tuple_newer a b → tuple_newer b c → tuple_newer a c) ∧
    (tuple_newer a b ∨ tuple_newer b a ∨
      (tsOf a = tsOf b ∧ dataTypeOf a = dataTypeOf b ∧ a.hash = b.hash)) := by
  have h := slotCompare_char a b ha20 hb20 hta htb hka hkb
  refine ⟨h.1, h.2.2, h.2.1, fun h1 h2 => tuple_newer_trans h1 h2, ?_⟩
  rcases Int.lt_trichotomy (slotCompare a b) 0 with hc | hc | hc
  · exact Or.inr (Or.inl (h.2.2.mp hc))
  · exact Or.inr (Or.inr (h.2.1.mp hc))
  · exact Or.inl (h.1.mp hc)

/-- C3 amended-claim witness: concrete messages with the hypotheses
discharged; the comparator on (newer stored Remove, older incoming Add) is
positive because the stored message is the newer one. -/
theorem C3_comparator_tuple_order_witness :
    (List.replicate 20 3 : Bytes).length = 20 ∧
    slotCompare
        ⟨some ⟨1, 6, 2, some (Body.linkBody ⟨[102], some (Target.targetFid 9)⟩)⟩,
         List.replicate 20 3, 1⟩
        ⟨some ⟨1, 5, 1, some (Body.linkBody ⟨[102], some (Target.targetFid 9)⟩)⟩,
         List.replicate 20 4, 1⟩ > 0 ∧
    tuple_newer
        ⟨some ⟨1, 6, 2, some (Body.linkBody ⟨[102], some (Target.targetFid 9)⟩)⟩,
         List.replicate 20 3, 1⟩
        ⟨some ⟨1, 5, 1, some (Body.linkBody ⟨[102], some (Target.targetFid 9)⟩)⟩,
         List.replicate 20 4, 1⟩ := by
  have h := C3_comparator_tuple_order
    ⟨some ⟨1, 6, 2, some (Body.linkBody ⟨[102], some (Target.targetFid 9)⟩)⟩,
     List.replicate 20 3, 1⟩
    ⟨some ⟨1, 5, 1, some (Body.linkBody ⟨[102], some (Target.targetFid 9)⟩)⟩,
     List.replicate 20 4, 1⟩
    ⟨some ⟨1, 5, 1, some (Body.linkBody ⟨[102], some (Target.targetFid 9)⟩)⟩,
     List.replicate 20 4, 1⟩
    (by decide) (by decide) (by decide) (by decide) (by decide) (by decide)
  exact ⟨by decide, h.1.mpr (by decide), by decide⟩

/-- C10 witness: a LinkAdd with owner fid `2 ^ 32` (which truncates to 0)
fails secondary-index construction with the validation-failure code. -/
theorem C10_owner_fid_zero_sentinel_witness :
    ∃ e, build_secondary_indices emptyState (List.replicate 24 0)
        ⟨some ⟨2 ^ 32, 5, 10,
          some (Body.linkBody ⟨[102], some (Target.targetFid 1)⟩)⟩,
         List.replicate 20 1, 1⟩ = Except.error e ∧
      e.code = "bad_request.validation_failure" :=
  (C10_owner_fid_zero_sentinel emptyState (List.replicate 24 0) _ _ _ rfl rfl).1
    (by decide) (by decide)

/-! ### Valid slot messages: extraction and key-computation lemmas -/

section SlotLemmas

variable {fid : Nat} {t : Bytes} {tgt : Nat} {m : Message}

lemma vs_data (hm : ValidSlot fid t tgt m) :
    m.data = some { fid := fid, type := dataTypeOf m, timestamp := tsOf m,
                    body := some (Body.linkBody { type := t,
                                                  target := some (Target.targetFid tgt) }) } :=
  hm.2.2.2.2.2.2.2

lemma vs_hash20 (hm : ValidSlot fid t tgt m) : m.hash.length = 20 := hm.2.1

lemma vs_fid_ne (hm : ValidSlot fid t tgt m) : fid % 2 ^ 32 ≠ 0 := hm.2.2.1

lemma vs_t_ne (hm : ValidSlot fid t tgt m) : t ≠ [] := hm.2.2.2.1

lemma vs_t_le (hm : ValidSlot fid t tgt m) : t.length ≤ LINK_TYPE_BYTE_SIZE := hm.2.2.2.2.1

lemma vs_kind (hm : ValidSlot fid t tgt m) :
    dataTypeOf m = linkAddType ∨ dataTypeOf m = linkRemoveType := hm.2.2.2.2.2.1

lemma vs_ts_lt (hm : ValidSlot fid t tgt m) : tsOf m < 2 ^ 32 := hm.2.2.2.2.2.2.1

lemma vs_scheme (hm : ValidSlot fid t tgt m) : m.signatureScheme = ed25519Scheme := hm.1

lemma vs_fid32 (hm : ValidSlot fid t tgt m) : fid32_of m = fid % 2 ^ 32 := by
  unfold fid32_of
  rw [vs_data hm]
  rfl

lemma vs_tsh_len (hm : ValidSlot fid t tgt m) : (ts_hash_of m).length = TS_HASH_LENGTH := by
  unfold ts_hash_of TS_HASH_LENGTH
  simp [beBytes_length, vs_hash20 hm]

lemma vs_is_add (hm : ValidSlot fid t tgt m) :
    is_add_type m = true ↔ dataTypeOf m = linkAddType := by
  unfold is_add_type
  rw [vs_data hm, vs_scheme hm]
  simp

lemma vs_is_remove (hm : ValidSlot fid t tgt m) :
    is_remove_type m = true ↔ dataTypeOf m = linkRemoveType := by
  unfold is_remove_type
  rw [vs_data hm, vs_scheme hm]
  simp

lemma vs_is_add_false (hm : ValidSlot fid t tgt m) (hk : dataTypeOf m = linkRemoveType) :
    is_add_type m = false := by
  rcases Bool.eq_false_or_eq_true (is_add_type m) with h | h
  swap
  · exact h
  · exfalso
    have := (vs_is_add hm).mp h
    rw [hk] at this
    simp [linkAddType, linkRemoveType] at this

lemma vs_is_remove_false (hm : ValidSlot fid t tgt m) (hk : dataTypeOf m = linkAddType) :
    is_remove_type m = false := by
  rcases Bool.eq_false_or_eq_true (is_remove_type m) with h | h
  swap
  · exact h
  · exfalso
    have := (vs_is_remove hm).mp h
    rw [hk] at this
    simp [linkAddType, linkRemoveType] at this

lemma vs_add_or_remove (hm : ValidSlot fid t tgt m) :
    is_add_type m = true ∨ is_remove_type m = true := by
  rcases vs_kind hm with h | h
  · exact Or.inl ((vs_is_add hm).mpr h)
  · exact Or.inr ((vs_is_remove hm).mpr h)

lemma vs_link_body (hm : ValidSlot fid t tgt m) :
    link_body_of m = { type := t, target := some (Target.targetFid tgt) } := by
  unfold link_body_of
  rw [vs_data hm]
  rfl

lemma vs_ts_hash (hm : ValidSlot fid t tgt m) : make_ts_hash m = Except.ok (ts_hash_of m) := by
  unfold make_ts_hash ts_hash_of
  rw [vs_data hm]

lemma vs_add_key (hm : ValidSlot fid t tgt m) (padded : Bool) :
    make_add_key_padded m padded = Except.ok (slot_add_key fid t tgt padded) := by
  unfold make_add_key_padded link_add_key slot_add_key
  rw [vs_data hm]
  have hne : t.isEmpty = false := by simpa [List.isEmpty_iff] using vs_t_ne hm
  have hnz : t.length ≠ 0 := by simpa [List.length_eq_zero] using vs_t_ne hm
  have hnot : ¬ t.length > LINK_TYPE_BYTE_SIZE := Nat.not_lt.mpr (vs_t_le hm)
  simp [hne, hnz, hnot]

lemma vs_remove_key (hm : ValidSlot fid t tgt m) (padded : Bool) :
    make_remove_key_padded m padded = Except.ok (slot_remove_key fid t tgt padded) := by
  unfold make_remove_key_padded link_remove_key slot_remove_key
  rw [vs_data hm]
  have hne : t.isEmpty = false := by simpa [List.isEmpty_iff] using vs_t_ne hm
  have hnz : t.length ≠ 0 := by simpa [List.length_eq_zero] using vs_t_ne hm
  have hnot : ¬ t.length > LINK_TYPE_BYTE_SIZE := Nat.not_lt.mpr (vs_t_le hm)
  simp [hne, hnz, hnot]

lemma vs_compact_key (hm : ValidSlot fid t tgt m) :
    make_compact_state_add_key m = Except.ok (slot_compact_key fid t) := by
  unfold make_compact_state_add_key link_compact_state_add_key slot_compact_key
  rw [vs_data hm]

lemma vs_secondary (hm : ValidSlot fid t tgt m) :
    secondary_index_key (ts_hash_of m) m =
      Except.ok (slot_by_target_key fid tgt (ts_hash_of m), t) := by
  unfold secondary_index_key links_by_target_key slot_by_target_key
  rw [vs_data hm]
  have h24 : (ts_hash_of m).length = 24 := vs_tsh_len hm
  have hne : (ts_hash_of m).length ≠ 0 := by omega
  have hfid : fid % 2 ^ 32 ≠ 0 := vs_fid_ne hm
  have hpos : 0 < fid % 2 ^ 32 := Nat.pos_of_ne_zero hfid
  have e32 : (2 : Nat) ^ 32 = 4294967296 := by norm_num
  have hfid2 : fid % 4294967296 ≠ 0 := by
    rw [← e32]
    exact hfid
  have hpos2 : 0 < fid % 4294967296 := by
    rw [← e32]
    exact hpos
  simp [hne, hfid, hpos, hfid2, hpos2]

lemma vs_primary (hm : ValidSlot fid t tgt m) :
    primary_key_of m = slot_primary_key fid (ts_hash_of m) := by
  unfold primary_key_of slot_primary_key
  rw [vs_fid32 hm]

lemma vs_by_target (hm : ValidSlot fid t tgt m) :
    by_target_key_of m = slot_by_target_key fid tgt (ts_hash_of m) := by
  unfold by_target_key_of
  rw [vs_secondary hm]
  rfl

lemma vs_own_set_add (hm : ValidSlot fid t tgt m) (hk : dataTypeOf m = linkAddType) :
    own_set_key_of m = slot_add_key fid t tgt true := by
  unfold own_set_key_of
  rw [if_pos ((vs_is_add hm).mpr hk)]
  unfold make_add_key
  rw [vs_add_key hm true]
  rfl

lemma vs_own_set_remove (hm : ValidSlot fid t tgt m) (hk : dataTypeOf m = linkRemoveType) :
    own_set_key_of m = slot_remove_key fid t tgt true := by
  unfold own_set_key_of
  rw [if_neg]
  · unfold make_remove_key
    rw [vs_remove_key hm true]
    rfl
  · rw [vs_is_add_false hm hk]
    simp

/-! ### Key lengths and disequalities -/

lemma resizeZero_length (n : Nat) (b : Bytes) : (resizeZero n b).length = n := by
  unfold resizeZero
  simp [List.length_take, List.length_replicate]
  omega

lemma make_fid_key_length (x : Nat) : (make_fid_key x).length = 4 := beBytes_length 4 x

lemma make_user_key_length (x : Nat) : (make_user_key x).length = 5 := by
  simp [make_user_key, make_fid_key_length]

lemma slot_add_key_length :
    (slot_add_key fid t tgt p).length = 10 + (if p then LINK_TYPE_BYTE_SIZE else t.length) := by
  unfold slot_add_key
  cases p <;>
    simp [make_user_key_length, make_fid_key_length, resizeZero_length, List.length_append] <;>
    omega

lemma slot_remove_key_length :
    (slot_remove_key fid t tgt p).length = 10 + (if p then LINK_TYPE_BYTE_SIZE else t.length) := by
  unfold slot_remove_key
  cases p <;>
    simp [make_user_key_length, make_fid_key_length, resizeZero_length, List.length_append] <;>
    omega

lemma slot_primary_key_length {th : Bytes} (hth : th.length = TS_HASH_LENGTH) :
    (slot_primary_key fid th).length = 30 := by
  have h24 : th.length = 24 := hth
  unfold slot_primary_key make_message_primary_key
  simp [make_user_key_length, h24, List.length_append]

lemma slot_by_target_key_length {th : Bytes} (hth : th.length = TS_HASH_LENGTH) :
    (slot_by_target_key fid tgt th).length = 33 := by
  have h24 : th.length = 24 := hth
  unfold slot_by_target_key
  simp [make_fid_key_length, h24, List.length_append]

lemma slot_compact_key_length : (slot_compact_key fid t).length = 14 := by
  unfold slot_compact_key
  simp [make_user_key_length, resizeZero_length, LINK_TYPE_BYTE_SIZE]

lemma ne_of_length_ne {a b : Bytes} (h : a.length ≠ b.length) : a ≠ b := by
  intro hc
  exact h (by rw [hc])

lemma append_cons_ne {p u v : Bytes} {x y : Nat} (h : x ≠ y) :
    p ++ x :: u ≠ p ++ y :: v := by
  intro hc
  have h2 := List.append_cancel_left hc
  injection h2 with h3 _
  exact h h3

end SlotLemmas

section SlotLemmas2

variable {fid : Nat} {t : Bytes} {tgt : Nat} {m r : Message} {th th2 : Bytes} {p p2 : Bool}

lemma slot_add_key_true :
    slot_add_key fid t tgt true =
      make_user_key (fid % 2 ^ 32) ++ upLinkAdds ::
        (resizeZero LINK_TYPE_BYTE_SIZE t ++ make_fid_key (tgt % 2 ^ 32)) := rfl

lemma slot_add_key_false :
    slot_add_key fid t tgt false =
      make_user_key (fid % 2 ^ 32) ++ upLinkAdds :: (t ++ make_fid_key (tgt % 2 ^ 32)) := rfl

lemma slot_remove_key_true :
    slot_remove_key fid t tgt true =
      make_user_key (fid % 2 ^ 32) ++ upLinkRemoves ::
        (resizeZero LINK_TYPE_BYTE_SIZE t ++ make_fid_key (tgt % 2 ^ 32)) := rfl

lemma slot_remove_key_false :
    slot_remove_key fid t tgt false =
      make_user_key (fid % 2 ^ 32) ++ upLinkRemoves :: (t ++ make_fid_key (tgt % 2 ^ 32)) := rfl

lemma add_key_ne_remove_key (t2 : Bytes) (tgt2 : Nat) :
    slot_add_key fid t tgt p ≠ slot_remove_key fid t2 tgt2 p2 := by
  unfold slot_add_key slot_remove_key
  exact append_cons_ne (by simp [upLinkAdds, upLinkRemoves])

lemma primary_ne_add_key (hth : th.length = TS_HASH_LENGTH)
    (hlt : t.length ≤ LINK_TYPE_BYTE_SIZE) :
    slot_primary_key fid th ≠ slot_add_key fid t tgt p := by
  have h8 : LINK_TYPE_BYTE_SIZE = 8 := rfl
  have hlt8 : t.length ≤ 8 := hlt
  apply ne_of_length_ne
  rw [slot_primary_key_length hth, slot_add_key_length]
  cases p <;> simp [h8] <;> omega

lemma primary_ne_remove_key (hth : th.length = TS_HASH_LENGTH)
    (hlt : t.length ≤ LINK_TYPE_BYTE_SIZE) :
    slot_primary_key fid th ≠ slot_remove_key fid t tgt p := by
  have h8 : LINK_TYPE_BYTE_SIZE = 8 := rfl
  have hlt8 : t.length ≤ 8 := hlt
  apply ne_of_length_ne
  rw [slot_primary_key_length hth, slot_remove_key_length]
  cases p <;> simp [h8] <;> omega

lemma primary_ne_by_target (hth : th.length = TS_HASH_LENGTH)
    (hth2 : th2.length = TS_HASH_LENGTH) :
    slot_primary_key fid th ≠ slot_by_target_key fid tgt th2 := by
  apply ne_of_length_ne
  rw [slot_primary_key_length hth, slot_by_target_key_length hth2]
  omega

lemma by_target_ne_add_key (hth : th.length = TS_HASH_LENGTH)
    (hlt : t.length ≤ LINK_TYPE_BYTE_SIZE) :
    slot_by_target_key fid tgt th ≠ slot_add_key fid t tgt p := by
  have h8 : LINK_TYPE_BYTE_SIZE = 8 := rfl
  have hlt8 : t.length ≤ 8 := hlt
  apply ne_of_length_ne
  rw [slot_by_target_key_length hth, slot_add_key_length]
  cases p <;> simp [h8] <;> omega

lemma by_target_ne_remove_key (hth : th.length = TS_HASH_LENGTH)
    (hlt : t.length ≤ LINK_TYPE_BYTE_SIZE) :
    slot_by_target_key fid tgt th ≠ slot_remove_key fid t tgt p := by
  have h8 : LINK_TYPE_BYTE_SIZE = 8 := rfl
  have hlt8 : t.length ≤ 8 := hlt
  apply ne_of_length_ne
  rw [slot_by_target_key_length hth, slot_remove_key_length]
  cases p <;> simp [h8] <;> omega

lemma compact_ne_primary (hth : th.length = TS_HASH_LENGTH) :
    slot_compact_key fid t ≠ slot_primary_key fid th := by
  apply ne_of_length_ne
  rw [slot_compact_key_length, slot_primary_key_length hth]
  omega

lemma compact_ne_add_key (t2 : Bytes) :
    slot_compact_key fid t ≠ slot_add_key fid t2 tgt p := by
  unfold slot_compact_key slot_add_key
  exact append_cons_ne (by simp [upLinkCompactState, upLinkAdds])

lemma compact_ne_remove_key (t2 : Bytes) :
    slot_compact_key fid t ≠ slot_remove_key fid t2 tgt p := by
  unfold slot_compact_key slot_remove_key
  exact append_cons_ne (by simp [upLinkCompactState, upLinkRemoves])

lemma compact_ne_by_target (hth : th.length = TS_HASH_LENGTH) :
    slot_compact_key fid t ≠ slot_by_target_key fid tgt th := by
  apply ne_of_length_ne
  rw [slot_compact_key_length, slot_by_target_key_length hth]
  omega

lemma primary_key_inj (h : slot_primary_key fid th = slot_primary_key fid th2) : th = th2 := by
  unfold slot_primary_key make_message_primary_key at h
  have h2 := List.append_cancel_left h
  injection h2

lemma by_target_key_inj (hth : th.length = TS_HASH_LENGTH) (hth2 : th2.length = TS_HASH_LENGTH)
    (h : slot_by_target_key fid tgt th = slot_by_target_key fid tgt th2) : th = th2 := by
  unfold slot_by_target_key at h
  injection h with _ h2
  have hlen : (make_fid_key (tgt % 2 ^ 32) ++ th).length =
      (make_fid_key (tgt % 2 ^ 32) ++ th2).length := by
    have h24 : th.length = 24 := hth
    have h24b : th2.length = 24 := hth2
    simp [List.length_append, h24, h24b]
  obtain ⟨h3, _⟩ := List.append_inj h2 hlen
  exact List.append_cancel_left h3

lemma resizeZero_eq_self_iff (hlt : t.length ≤ LINK_TYPE_BYTE_SIZE) :
    resizeZero LINK_TYPE_BYTE_SIZE t = t ↔ t.length = LINK_TYPE_BYTE_SIZE := by
  rw [resizeZero_of_le hlt]
  constructor
  · intro h
    have h2 := congrArg List.length h
    simp [List.length_append, List.length_replicate] at h2
    omega
  · intro h
    rw [h]
    simp

lemma add_key_padded_eq_unpadded_iff (hlt : t.length ≤ LINK_TYPE_BYTE_SIZE) :
    slot_add_key fid t tgt true = slot_add_key fid t tgt false ↔
      t.length = LINK_TYPE_BYTE_SIZE := by
  rw [slot_add_key_true, slot_add_key_false]
  constructor
  · intro h
    have h2 := List.append_cancel_left h
    injection h2 with _ h3
    have h4 := List.append_cancel_right h3
    exact (resizeZero_eq_self_iff hlt).mp h4
  · intro h
    rw [(resizeZero_eq_self_iff hlt).mpr h]

lemma remove_key_padded_eq_unpadded_iff (hlt : t.length ≤ LINK_TYPE_BYTE_SIZE) :
    slot_remove_key fid t tgt true = slot_remove_key fid t tgt false ↔
      t.length = LINK_TYPE_BYTE_SIZE := by
  rw [slot_remove_key_true, slot_remove_key_false]
  constructor
  · intro h
    have h2 := List.append_cancel_left h
    injection h2 with _ h3
    have h4 := List.append_cancel_right h3
    exact (resizeZero_eq_self_iff hlt).mp h4
  · intro h
    rw [(resizeZero_eq_self_iff hlt).mpr h]

lemma ts_hash_inj (hr20 : r.hash.length = 20) (hm20 : m.hash.length = 20)
    (htr : tsOf r < 2 ^ 32) (htm : tsOf m < 2 ^ 32)
    (h : ts_hash_of r = ts_hash_of m) : tsOf r = tsOf m ∧ r.hash = m.hash := by
  unfold ts_hash_of at h
  have hlen : (beBytes 4 (tsOf r)).length = (beBytes 4 (tsOf m)).length := by
    simp [beBytes_length]
  obtain ⟨hbe, hh⟩ := List.append_inj h hlen
  refine ⟨?_, hh⟩
  have h2 := beBytes_inj hbe
  have h32 : (2 : Nat) ^ (8 * 4) = 2 ^ 32 := by norm_num
  rw [h32, Nat.mod_eq_of_lt htr, Nat.mod_eq_of_lt htm] at h2
  exact h2

lemma valid_eq_of_parts {fid t tgt} (hr : ValidSlot fid t tgt r) (hm : ValidSlot fid t tgt m)
    (hts : tsOf r = tsOf m) (hk : dataTypeOf r = dataTypeOf m) (hh : r.hash = m.hash) :
    r = m := by
  have hd1 := vs_data hr
  have hd2 := vs_data hm
  have hdata : r.data = m.data := by
    rw [hd1, hd2, hk, hts]
  have hs1 := vs_scheme hr
  have hs2 := vs_scheme hm
  cases r with
  | mk rd rh rs =>
    cases m with
    | mk md mh ms =>
      simp only at hdata hh hs1 hs2
      simp [hdata, hh, hs1, hs2]

lemma slotCompare_ne_zero {fid t tgt} (hr : ValidSlot fid t tgt r) (hm : ValidSlot fid t tgt m)
    (hne : r ≠ m) : slotCompare r m ≠ 0 := by
  intro h0
  have char := slotCompare_char r m (vs_hash20 hr) (vs_hash20 hm) (vs_ts_lt hr) (vs_ts_lt hm)
    (vs_kind hr) (vs_kind hm)
  obtain ⟨hts, hk, hh⟩ := char.2.1.mp h0
  exact hne (valid_eq_of_parts hr hm hts hk hh)

lemma slotCompare_self_eq_zero : slotCompare m m = 0 := by
  unfold slotCompare message_compare
  have h1 : bytesCompare ((ts_hash_of m).take 4) ((ts_hash_of m).take 4) = 0 := bytesCompare_self _
  rw [h1]
  have hn1 : ¬ (dataTypeOf m = remove_message_type ∧ dataTypeOf m = add_message_type) := by
    rintro ⟨h2, h3⟩
    rw [h2] at h3
    simp [remove_message_type, add_message_type, linkAddType, linkRemoveType] at h3
  have hn2 : ¬ (dataTypeOf m = add_message_type ∧ dataTypeOf m = remove_message_type) := by
    rintro ⟨h2, h3⟩
    rw [h2] at h3
    simp [remove_message_type, add_message_type, linkAddType, linkRemoveType] at h3
  simp [hn1, hn2, bytesCompare_self]

lemma slot_state_add_fun {fid t tgt} (hm : ValidSlot fid t tgt m)
    (hk : dataTypeOf m = linkAddType) :
    slot_state m = fun k =>
      if k = slot_primary_key fid (ts_hash_of m) then some (KVal.msg m)
      else if k = slot_add_key fid t tgt true then some (KVal.raw (ts_hash_of m))
      else if k = slot_by_target_key fid tgt (ts_hash_of m) then some (KVal.raw t)
      else none := by
  funext k
  unfold slot_state
  rw [vs_primary hm, vs_own_set_add hm hk, vs_by_target hm, vs_link_body hm]
  have hadd := (vs_is_add hm).mpr hk
  simp [hadd]

lemma slot_state_remove_fun {fid t tgt} (hm : ValidSlot fid t tgt m)
    (hk : dataTypeOf m = linkRemoveType) :
    slot_state m = fun k =>
      if k = slot_primary_key fid (ts_hash_of m) then some (KVal.msg m)
      else if k = slot_remove_key fid t tgt true then some (KVal.raw (ts_hash_of m))
      else none := by
  funext k
  unfold slot_state
  rw [vs_primary hm, vs_own_set_remove hm hk]
  have hnadd := vs_is_add_false hm hk
  simp [hnadd]

end SlotLemmas2

/-! ### Explicit-argument restatements of the key disequalities -/

lemma primary_ne_add_key_e (f g : Nat) (q : Bool) {w u : Bytes}
    (hw : w.length = TS_HASH_LENGTH) (hu : u.length ≤ LINK_TYPE_BYTE_SIZE) :
    slot_primary_key f w ≠ slot_add_key f u g q :=
  primary_ne_add_key hw hu

lemma primary_ne_remove_key_e (f g : Nat) (q : Bool) {w u : Bytes}
    (hw : w.length = TS_HASH_LENGTH) (hu : u.length ≤ LINK_TYPE_BYTE_SIZE) :
    slot_primary_key f w ≠ slot_remove_key f u g q :=
  primary_ne_remove_key hw hu

lemma primary_ne_by_target_e (f g : Nat) {w w2 : Bytes}
    (hw : w.length = TS_HASH_LENGTH) (hw2 : w2.length = TS_HASH_LENGTH) :
    slot_primary_key f w ≠ slot_by_target_key f g w2 :=
  primary_ne_by_target hw hw2

lemma add_key_ne_remove_key_e (f : Nat) (u : Bytes) (g : Nat) (q q2 : Bool)
    (u2 : Bytes) (g2 : Nat) :
    slot_add_key f u g q ≠ slot_remove_key f u2 g2 q2 :=
  add_key_ne_remove_key u2 g2

lemma by_target_ne_add_key_e (f g : Nat) (q : Bool) {w u : Bytes}
    (hw : w.length = TS_HASH_LENGTH) (hu : u.length ≤ LINK_TYPE_BYTE_SIZE) :
    slot_by_target_key f g w ≠ slot_add_key f u g q :=
  by_target_ne_add_key hw hu

lemma by_target_ne_remove_key_e (f g : Nat) (q : Bool) {w u : Bytes}
    (hw : w.length = TS_HASH_LENGTH) (hu : u.length ≤ LINK_TYPE_BYTE_SIZE) :
    slot_by_target_key f g w ≠ slot_remove_key f u g q :=
  by_target_ne_remove_key hw hu

lemma compact_ne_primary_e (f : Nat) {u w : Bytes} (hw : w.length = TS_HASH_LENGTH) :
    slot_compact_key f u ≠ slot_primary_key f w :=
  compact_ne_primary hw

lemma compact_ne_add_key_e (f : Nat) (u : Bytes) (g : Nat) (q : Bool) (u2 : Bytes) :
    slot_compact_key f u ≠ slot_add_key f u2 g q :=
  compact_ne_add_key u2

lemma compact_ne_remove_key_e (f : Nat) (u : Bytes) (g : Nat) (q : Bool) (u2 : Bytes) :
    slot_compact_key f u ≠ slot_remove_key f u2 g q :=
  compact_ne_remove_key u2

lemma compact_ne_by_target_e (f g : Nat) {u w : Bytes} (hw : w.length = TS_HASH_LENGTH) :
    slot_compact_key f u ≠ slot_by_target_key f g w :=
  compact_ne_by_target hw

lemma add_key_padded_eq_unpadded_iff_e (f g : Nat) {u : Bytes}
    (hu : u.length ≤ LINK_TYPE_BYTE_SIZE) :
    slot_add_key f u g true = slot_add_key f u g false ↔ u.length = LINK_TYPE_BYTE_SIZE :=
  add_key_padded_eq_unpadded_iff hu

lemma remove_key_padded_eq_unpadded_iff_e (f g : Nat) {u : Bytes}
    (hu : u.length ≤ LINK_TYPE_BYTE_SIZE) :
    slot_remove_key f u g true = slot_remove_key f u g false ↔ u.length = LINK_TYPE_BYTE_SIZE :=
  remove_key_padded_eq_unpadded_iff hu

/-! ### Conflict discovery on empty and single-slot states -/

section MergeLemmas

variable {fid : Nat} {t : Bytes} {tgt : Nat} {m r : Message} {st : State}

lemma dbGet_empty (k : Bytes) : dbGet emptyState k = none := rfl

lemma check_conflict_at_none {storedType : Nat} {key : Bytes} {desc : String}
    {tsh : Bytes} {conflicts : List Message} (h : dbGet st key = none) :
    check_conflict_at st storedType key desc m tsh conflicts = .ok conflicts := by
  unfold check_conflict_at
  rw [h]

lemma cmp_stored_add (hk : dataTypeOf r = linkAddType) :
    message_compare add_message_type (ts_hash_of r) (dataTypeOf m) (ts_hash_of m) =
      slotCompare r m := by
  unfold slotCompare
  rw [hk]
  rfl

lemma cmp_stored_remove (hk : dataTypeOf r = linkRemoveType) :
    message_compare remove_message_type (ts_hash_of r) (dataTypeOf m) (ts_hash_of m) =
      slotCompare r m := by
  unfold slotCompare
  rw [hk]
  rfl

lemma dbGet_probe_remove_true (hr : ValidSlot fid t tgt r) :
    dbGet (slot_state r) (slot_remove_key fid t tgt true) =
      if dataTypeOf r = linkRemoveType then some (ts_hash_of r) else none := by
  have hth := vs_tsh_len hr
  have hlt := vs_t_le hr
  rcases vs_kind hr with hk | hk
  · rw [slot_state_add_fun hr hk]
    unfold dbGet
    have h1 := (primary_ne_remove_key_e fid tgt true hth hlt).symm
    have h2 := (add_key_ne_remove_key_e fid t tgt true true t tgt).symm
    have h3 := (by_target_ne_remove_key_e fid tgt true hth hlt).symm
    rw [hk]
    simp [h1, h2, h3, linkAddType, linkRemoveType]
  · rw [slot_state_remove_fun hr hk]
    unfold dbGet
    have h1 := (primary_ne_remove_key_e fid tgt true hth hlt).symm
    rw [hk]
    simp [h1]

lemma dbGet_probe_add_true (hr : ValidSlot fid t tgt r) :
    dbGet (slot_state r) (slot_add_key fid t tgt true) =
      if dataTypeOf r = linkAddType then some (ts_hash_of r) else none := by
  have hth := vs_tsh_len hr
  have hlt := vs_t_le hr
  rcases vs_kind hr with hk | hk
  · rw [slot_state_add_fun hr hk]
    unfold dbGet
    have h1 := (primary_ne_add_key_e fid tgt true hth hlt).symm
    rw [hk]
    simp [h1]
  · rw [slot_state_remove_fun hr hk]
    unfold dbGet
    have h1 := (primary_ne_add_key_e fid tgt true hth hlt).symm
    have h2 := add_key_ne_remove_key_e fid t tgt true true t tgt
    rw [hk]
    simp [h1, h2, linkAddType, linkRemoveType]

lemma dbGet_probe_remove_false (hr : ValidSlot fid t tgt r) :
    dbGet (slot_state r) (slot_remove_key fid t tgt false) =
      if dataTypeOf r = linkRemoveType ∧ t.length = LINK_TYPE_BYTE_SIZE then
        some (ts_hash_of r)
      else none := by
  have hth := vs_tsh_len hr
  have hlt := vs_t_le hr
  rcases vs_kind hr with hk | hk
  · rw [slot_state_add_fun hr hk]
    unfold dbGet
    have h1 := (primary_ne_remove_key_e fid tgt false hth hlt).symm
    have h2 := (add_key_ne_remove_key_e fid t tgt true false t tgt).symm
    have h3 := (by_target_ne_remove_key_e fid tgt false hth hlt).symm
    rw [hk]
    simp [h1, h2, h3, linkAddType, linkRemoveType]
  · rw [slot_state_remove_fun hr hk]
    unfold dbGet
    have h1 := (primary_ne_remove_key_e fid tgt false hth hlt).symm
    by_cases h8 : t.length = LINK_TYPE_BYTE_SIZE
    · have hkey := (remove_key_padded_eq_unpadded_iff_e fid tgt hlt).mpr h8
      have h1p := (primary_ne_remove_key_e fid tgt true hth hlt).symm
      rw [hk]
      simp [h1, h1p, hkey.symm, h8]
    · have hkey : slot_remove_key fid t tgt true ≠ slot_remove_key fid t tgt false := by
        intro hc
        exact h8 ((remove_key_padded_eq_unpadded_iff hlt).mp hc)
      rw [hk]
      simp [h1, hkey.symm, h8]

lemma dbGet_probe_add_false (hr : ValidSlot fid t tgt r) :
    dbGet (slot_state r) (slot_add_key fid t tgt false) =
      if dataTypeOf r = linkAddType ∧ t.length = LINK_TYPE_BYTE_SIZE then
        some (ts_hash_of r)
      else none := by
  have hth := vs_tsh_len hr
  have hlt := vs_t_le hr
  rcases vs_kind hr with hk | hk
  · rw [slot_state_add_fun hr hk]
    unfold dbGet
    have h1 := (primary_ne_add_key_e fid tgt false hth hlt).symm
    have h3 := (by_target_ne_add_key_e fid tgt false hth hlt).symm
    by_cases h8 : t.length = LINK_TYPE_BYTE_SIZE
    · have hkey := (add_key_padded_eq_unpadded_iff_e fid tgt hlt).mpr h8
      have h1p := (primary_ne_add_key_e fid tgt true hth hlt).symm
      rw [hk]
      simp [h1, h1p, h3, hkey.symm, h8]
    · have hkey : slot_add_key fid t tgt true ≠ slot_add_key fid t tgt false := by
        intro hc
        exact h8 ((add_key_padded_eq_unpadded_iff hlt).mp hc)
      rw [hk]
      simp [h1, h3, hkey.symm, h8]
  · rw [slot_state_remove_fun hr hk]
    unfold dbGet
    have h1 := (primary_ne_add_key_e fid tgt false hth hlt).symm
    have h2 := add_key_ne_remove_key_e fid t tgt false true t tgt
    rw [hk]
    simp [h1, h2, linkAddType, linkRemoveType]

lemma dbGet_slot_compact (hr : ValidSlot fid t tgt r) :
    dbGet (slot_state r) (slot_compact_key fid t) = none := by
  have hth := vs_tsh_len hr
  have hlt := vs_t_le hr
  rcases vs_kind hr with hk | hk
  · rw [slot_state_add_fun hr hk]
    unfold dbGet
    simp [compact_ne_primary_e fid hth, compact_ne_add_key_e fid t tgt true t, compact_ne_by_target_e fid tgt hth]
  · rw [slot_state_remove_fun hr hk]
    unfold dbGet
    simp [compact_ne_primary_e fid hth, compact_ne_remove_key_e fid t tgt true t]

lemma get_message_slot_self (hr : ValidSlot fid t tgt r) :
    get_message (slot_state r) (fid % 2 ^ 32) linkStorePostfixByte (ts_hash_of r) = some r := by
  unfold get_message
  have hkey : make_message_primary_key (fid % 2 ^ 32) linkStorePostfixByte (ts_hash_of r) =
      slot_primary_key fid (ts_hash_of r) := rfl
  rw [hkey]
  rcases vs_kind hr with hk | hk
  · rw [slot_state_add_fun hr hk]
    simp
  · rw [slot_state_remove_fun hr hk]
    simp

lemma gmc_empty (hm : ValidSlot fid t tgt m) :
    get_merge_conflicts emptyState m (ts_hash_of m) = .ok [] := by
  simp only [get_merge_conflicts, get_default_merge_conflicts, make_add_key, make_remove_key,
    vs_add_key hm, vs_remove_key hm,
    check_conflict_at_none (dbGet_empty _), check_conflict_at_none (dbGet_empty _)]

lemma compact_guard_of_none (hm : ValidSlot fid t tgt m)
    (hc : dbGet st (slot_compact_key fid t) = none) :
    compact_state_guard st m (ts_hash_of m) = .ok () := by
  simp only [compact_state_guard, vs_compact_key hm, hc]

lemma check_conflict_at_hit {storedType : Nat} {key : Bytes} {desc : String}
    {conflicts : List Message} (h : dbGet st key = some (ts_hash_of r))
    (hcmp : message_compare storedType (ts_hash_of r) (dataTypeOf m) (ts_hash_of m) =
      slotCompare r m) :
    check_conflict_at st storedType key desc m (ts_hash_of m) conflicts =
      (if slotCompare r m > 0 then
        .error { code := "bad_request.conflict", message := desc }
      else if slotCompare r m = 0 then
        .error { code := "bad_request.duplicate", message := "message has already been merged" }
      else
        match vec_to_u8_24 (ts_hash_of r) with
        | .error e => .error e
        | .ok th24 =>
          match get_message st (fid32_of m) linkStorePostfixByte th24 with
          | some existing => .ok (conflicts ++ [existing])
          | none => .ok conflicts) := by
  unfold check_conflict_at
  rw [h]
  simp only [hcmp]

lemma check_conflict_at_stale {fid t tgt} {storedType : Nat} {key : Bytes} {desc : String}
    {conflicts : List Message} (hr : ValidSlot fid t tgt r) (hm : ValidSlot fid t tgt m)
    (h : dbGet (slot_state r) key = some (ts_hash_of r))
    (hcmp : message_compare storedType (ts_hash_of r) (dataTypeOf m) (ts_hash_of m) =
      slotCompare r m)
    (hlt : slotCompare r m < 0) :
    check_conflict_at (slot_state r) storedType key desc m (ts_hash_of m) conflicts =
      .ok (conflicts ++ [r]) := by
  rw [check_conflict_at_hit h hcmp, if_neg (by omega), if_neg (by omega)]
  have h24 : vec_to_u8_24 (ts_hash_of r) = .ok (ts_hash_of r) := by
    unfold vec_to_u8_24
    rw [if_pos (vs_tsh_len hr)]
  simp only [h24, vs_fid32 hm, get_message_slot_self hr]

lemma gmc_slot_gt (hr : ValidSlot fid t tgt r) (hm : ValidSlot fid t tgt m)
    (hgt : slotCompare r m > 0) :
    ∃ e, get_merge_conflicts (slot_state r) m (ts_hash_of m) = .error e ∧
      e.code = "bad_request.conflict" := by
  rcases vs_kind hr with hk | hk
  · have hprm : check_conflict_at (slot_state r) remove_message_type
        (slot_remove_key fid t tgt true) "message conflicts with a more recent remove" m
        (ts_hash_of m) [] = .ok [] := by
      apply check_conflict_at_none
      rw [dbGet_probe_remove_true hr, hk]
      simp [linkAddType, linkRemoveType]
    have hpa : check_conflict_at (slot_state r) add_message_type
        (slot_add_key fid t tgt true) "message conflicts with a more recent add" m
        (ts_hash_of m) [] =
        .error { code := "bad_request.conflict",
                 message := "message conflicts with a more recent add" } := by
      rw [check_conflict_at_hit (by rw [dbGet_probe_add_true hr, if_pos hk])
        (cmp_stored_add hk), if_pos hgt]
    have heq : get_merge_conflicts (slot_state r) m (ts_hash_of m) =
        .error { code := "bad_request.conflict",
                 message := "message conflicts with a more recent add" } := by
      simp only [get_merge_conflicts, get_default_merge_conflicts, make_add_key,
        make_remove_key, vs_add_key hm, vs_remove_key hm, hprm, hpa]
    exact ⟨_, heq, rfl⟩
  · have hprm : check_conflict_at (slot_state r) remove_message_type
        (slot_remove_key fid t tgt true) "message conflicts with a more recent remove" m
        (ts_hash_of m) [] =
        .error { code := "bad_request.conflict",
                 message := "message conflicts with a more recent remove" } := by
      rw [check_conflict_at_hit (by rw [dbGet_probe_remove_true hr, if_pos hk])
        (cmp_stored_remove hk), if_pos hgt]
    have heq : get_merge_conflicts (slot_state r) m (ts_hash_of m) =
        .error { code := "bad_request.conflict",
                 message := "message conflicts with a more recent remove" } := by
      simp only [get_merge_conflicts, get_default_merge_conflicts, make_add_key,
        make_remove_key, vs_add_key hm, vs_remove_key hm, hprm]
    exact ⟨_, heq, rfl⟩

lemma gmc_slot_dup (hr : ValidSlot fid t tgt r) (hm : ValidSlot fid t tgt m)
    (heq : slotCompare r m = 0) :
    get_merge_conflicts (slot_state r) m (ts_hash_of m) =
      .error { code := "bad_request.duplicate",
               message := "message has already been merged" } := by
  rcases vs_kind hr with hk | hk
  · have hprm : check_conflict_at (slot_state r) remove_message_type
        (slot_remove_key fid t tgt true) "message conflicts with a more recent remove" m
        (ts_hash_of m) [] = .ok [] := by
      apply check_conflict_at_none
      rw [dbGet_probe_remove_true hr, hk]
      simp [linkAddType, linkRemoveType]
    have hpa : check_conflict_at (slot_state r) add_message_type
        (slot_add_key fid t tgt true) "message conflicts with a more recent add" m
        (ts_hash_of m) [] =
        .error { code := "bad_request.duplicate",
                 message := "message has already been merged" } := by
      rw [check_conflict_at_hit (by rw [dbGet_probe_add_true hr, if_pos hk])
        (cmp_stored_add hk), if_neg (by omega), if_pos heq]
    simp only [get_merge_conflicts, get_default_merge_conflicts, make_add_key, make_remove_key,
      vs_add_key hm, vs_remove_key hm, hprm, hpa]
  · have hprm : check_conflict_at (slot_state r) remove_message_type
        (slot_remove_key fid t tgt true) "message conflicts with a more recent remove" m
        (ts_hash_of m) [] =
        .error { code := "bad_request.duplicate",
                 message := "message has already been merged" } := by
      rw [check_conflict_at_hit (by rw [dbGet_probe_remove_true hr, if_pos hk])
        (cmp_stored_remove hk), if_neg (by omega), if_pos heq]
    simp only [get_merge_conflicts, get_default_merge_conflicts, make_add_key, make_remove_key,
      vs_add_key hm, vs_remove_key hm, hprm]

lemma gmc_slot_lt (hr : ValidSlot fid t tgt r) (hm : ValidSlot fid t tgt m)
    (hlt : slotCompare r m < 0) :
    get_merge_conflicts (slot_state r) m (ts_hash_of m) =
      .ok (if t.length = LINK_TYPE_BYTE_SIZE then [r, r] else [r]) := by
  rcases vs_kind hr with hk | hk
  · -- r is an add: the padded and (for 8-byte types) unpadded Adds probes hit
    have hprm : check_conflict_at (slot_state r) remove_message_type
        (slot_remove_key fid t tgt true) "message conflicts with a more recent remove" m
        (ts_hash_of m) [] = .ok [] := by
      apply check_conflict_at_none
      rw [dbGet_probe_remove_true hr, hk]
      simp [linkAddType, linkRemoveType]
    have hpa : check_conflict_at (slot_state r) add_message_type
        (slot_add_key fid t tgt true) "message conflicts with a more recent add" m
        (ts_hash_of m) [] = .ok [r] :=
      check_conflict_at_stale hr hm (by rw [dbGet_probe_add_true hr, if_pos hk])
        (cmp_stored_add hk) hlt
    have hurm : check_conflict_at (slot_state r) remove_message_type
        (slot_remove_key fid t tgt false) "message conflicts with a more recent remove" m
        (ts_hash_of m) [r] = .ok [r] := by
      apply check_conflict_at_none
      rw [dbGet_probe_remove_false hr, hk]
      simp [linkAddType, linkRemoveType]
    by_cases h8 : t.length = LINK_TYPE_BYTE_SIZE
    · have hua : check_conflict_at (slot_state r) add_message_type
          (slot_add_key fid t tgt false) "message conflicts with a more recent add" m
          (ts_hash_of m) [r] = .ok [r, r] :=
        check_conflict_at_stale hr hm (by rw [dbGet_probe_add_false hr, if_pos ⟨hk, h8⟩])
          (cmp_stored_add hk) hlt
      rw [if_pos h8]
      simp only [get_merge_conflicts, get_default_merge_conflicts, make_add_key,
        make_remove_key, vs_add_key hm, vs_remove_key hm, hprm, hpa, hurm, hua]
    · have hua : check_conflict_at (slot_state r) add_message_type
          (slot_add_key fid t tgt false) "message conflicts with a more recent add" m
          (ts_hash_of m) [r] = .ok [r] := by
        apply check_conflict_at_none
        rw [dbGet_probe_add_false hr]
        simp [h8]
      rw [if_neg h8]
      simp only [get_merge_conflicts, get_default_merge_conflicts, make_add_key,
        make_remove_key, vs_add_key hm, vs_remove_key hm, hprm, hpa, hurm, hua]
  · -- r is a remove: the padded and (for 8-byte types) unpadded Removes probes hit
    have hprm : check_conflict_at (slot_state r) remove_message_type
        (slot_remove_key fid t tgt true) "message conflicts with a more recent remove" m
        (ts_hash_of m) [] = .ok [r] :=
      check_conflict_at_stale hr hm (by rw [dbGet_probe_remove_true hr, if_pos hk])
        (cmp_stored_remove hk) hlt
    have hpa : check_conflict_at (slot_state r) add_message_type
        (slot_add_key fid t tgt true) "message conflicts with a more recent add" m
        (ts_hash_of m) [r] = .ok [r] := by
      apply check_conflict_at_none
      rw [dbGet_probe_add_true hr, hk]
      simp [linkAddType, linkRemoveType]
    have hua : check_conflict_at (slot_state r) add_message_type
        (slot_add_key fid t tgt false) "message conflicts with a more recent add" m
        (ts_hash_of m) (if t.length = LINK_TYPE_BYTE_SIZE then [r, r] else [r]) =
        .ok (if t.length = LINK_TYPE_BYTE_SIZE then [r, r] else [r]) := by
      apply check_conflict_at_none
      rw [dbGet_probe_add_false hr, hk]
      simp [linkAddType, linkRemoveType]
    by_cases h8 : t.length = LINK_TYPE_BYTE_SIZE
    · have hurm : check_conflict_at (slot_state r) remove_message_type
          (slot_remove_key fid t tgt false) "message conflicts with a more recent remove" m
          (ts_hash_of m) [r] = .ok [r, r] :=
        check_conflict_at_stale hr hm (by rw [dbGet_probe_remove_false hr, if_pos ⟨hk, h8⟩])
          (cmp_stored_remove hk) hlt
      rw [if_pos h8] at hua ⊢
      simp only [get_merge_conflicts, get_default_merge_conflicts, make_add_key,
        make_remove_key, vs_add_key hm, vs_remove_key hm, hprm, hpa, hurm, hua]
    · have hurm : check_conflict_at (slot_state r) remove_message_type
          (slot_remove_key fid t tgt false) "message conflicts with a more recent remove" m
          (ts_hash_of m) [r] = .ok [r] := by
        apply check_conflict_at_none
        rw [dbGet_probe_remove_false hr]
        simp [h8]
      rw [if_neg h8] at hua ⊢
      simp only [get_merge_conflicts, get_default_merge_conflicts, make_add_key,
        make_remove_key, vs_add_key hm, vs_remove_key hm, hprm, hpa, hurm, hua]

lemma slot_primary_key_def (fid : Nat) (th : Bytes) :
    make_message_primary_key (fid % 2 ^ 32) linkStorePostfixByte th =
      slot_primary_key fid th := rfl

lemma delete_slot_self (hr : ValidSlot fid t tgt r) :
    delete_message_txn (slot_state r) r = .ok emptyState := by
  have hth := vs_tsh_len hr
  have hlt := vs_t_le hr
  rcases vs_kind hr with hk | hk
  · have hadd := (vs_is_add hr).mpr hk
    simp only [delete_message_txn, vs_ts_hash hr, hadd, if_true, make_add_key, vs_add_key hr,
      delete_secondary_indices, vs_secondary hr, vs_fid32 hr, slot_primary_key_def]
    congr 1
    rw [slot_state_add_fun hr hk]
    funext k
    simp only [del, emptyState]
    split_ifs <;> rfl
  · have hnadd := vs_is_add_false hr hk
    have hrem := (vs_is_remove hr).mpr hk
    simp only [delete_message_txn, vs_ts_hash hr, hnadd, hrem, Bool.false_eq_true, if_false,
      if_true, make_remove_key, vs_remove_key hr, delete_secondary_indices, vs_secondary hr,
      vs_fid32 hr, slot_primary_key_def]
    congr 1
    rw [slot_state_remove_fun hr hk]
    funext k
    simp only [del, emptyState]
    split_ifs <;> rfl

lemma delete_on_empty (hr : ValidSlot fid t tgt r) :
    delete_message_txn emptyState r = .ok emptyState := by
  rcases vs_kind hr with hk | hk
  · have hadd := (vs_is_add hr).mpr hk
    simp only [delete_message_txn, vs_ts_hash hr, hadd, if_true, make_add_key, vs_add_key hr,
      delete_secondary_indices, vs_secondary hr, vs_fid32 hr, slot_primary_key_def]
    congr 1
    funext k
    simp only [del, emptyState]
    split_ifs <;> rfl
  · have hnadd := vs_is_add_false hr hk
    have hrem := (vs_is_remove hr).mpr hk
    simp only [delete_message_txn, vs_ts_hash hr, hnadd, hrem, Bool.false_eq_true, if_false,
      if_true, make_remove_key, vs_remove_key hr, delete_secondary_indices, vs_secondary hr,
      vs_fid32 hr, slot_primary_key_def]
    congr 1
    funext k
    simp only [del, emptyState]
    split_ifs <;> rfl

lemma put_on_empty (hm : ValidSlot fid t tgt m) :
    put_message_txn emptyState m (ts_hash_of m) = .ok (slot_state m) := by
  have hth := vs_tsh_len hm
  have hlt := vs_t_le hm
  rcases vs_kind hm with hk | hk
  · have hadd := (vs_is_add hm).mpr hk
    simp only [put_message_txn, hadd, if_true, make_add_key, vs_add_key hm,
      build_secondary_indices, vs_secondary hm, vs_fid32 hm, slot_primary_key_def]
    congr 1
    rw [slot_state_add_fun hm hk]
    funext k
    simp only [putRaw, putMsg, emptyState]
    by_cases h1 : k = slot_primary_key fid (ts_hash_of m)
    · have hn1 := primary_ne_by_target_e fid tgt hth hth
      have hn2 := primary_ne_add_key_e fid tgt true hth hlt
      rw [h1]
      simp [hn1, hn2]
    · by_cases h2 : k = slot_add_key fid t tgt true
      · have hn1 := (by_target_ne_add_key_e fid tgt true hth hlt).symm
        rw [h2]
        simp [hn1, (primary_ne_add_key_e fid tgt true hth hlt).symm]
      · by_cases h3 : k = slot_by_target_key fid tgt (ts_hash_of m)
        · rw [h3]
          simp [(primary_ne_by_target_e fid tgt hth hth).symm,
            by_target_ne_add_key_e fid tgt true hth hlt]
        · simp [h1, h2, h3]
  · have hnadd := vs_is_add_false hm hk
    simp only [put_message_txn, hnadd, Bool.false_eq_true, if_false, make_remove_key,
      vs_remove_key hm, vs_fid32 hm, slot_primary_key_def]
    congr 1
    rw [slot_state_remove_fun hm hk]
    funext k
    simp only [putRaw, putMsg, emptyState]
    by_cases h1 : k = slot_primary_key fid (ts_hash_of m)
    · have hn2 := primary_ne_remove_key_e fid tgt true hth hlt
      rw [h1]
      simp [hn2]
    · by_cases h2 : k = slot_remove_key fid t tgt true
      · rw [h2]
        simp [(primary_ne_remove_key_e fid tgt true hth hlt).symm]
      · simp [h1, h2]

lemma merge_from_empty (hm : ValidSlot fid t tgt m) :
    merge_message emptyState m = .ok (slot_state m) := by
  have hor : (is_add_type m || is_remove_type m) = true := by
    rcases vs_add_or_remove hm with h | h <;> simp [h]
  have hguard := compact_guard_of_none hm (dbGet_empty _)
  simp only [merge_message, hor, if_true, vs_ts_hash hm, hguard, gmc_empty hm,
    find_merge_add_conflicts, find_merge_remove_conflicts, ite_self, delete_all,
    put_on_empty hm]

lemma merge_slot_lt (hr : ValidSlot fid t tgt r) (hm : ValidSlot fid t tgt m)
    (hlt : slotCompare r m < 0) :
    merge_message (slot_state r) m = .ok (slot_state m) := by
  have hor : (is_add_type m || is_remove_type m) = true := by
    rcases vs_add_or_remove hm with h | h <;> simp [h]
  have hguard := compact_guard_of_none hm (dbGet_slot_compact hr)
  have hdel : delete_all (slot_state r)
      (if t.length = LINK_TYPE_BYTE_SIZE then [r, r] else [r]) = .ok emptyState := by
    by_cases h8 : t.length = LINK_TYPE_BYTE_SIZE
    · rw [if_pos h8]
      simp only [delete_all, delete_slot_self hr, delete_on_empty hr]
    · rw [if_neg h8]
      simp only [delete_all, delete_slot_self hr]
  simp only [merge_message, hor, if_true, vs_ts_hash hm, hguard, gmc_slot_lt hr hm hlt,
    find_merge_add_conflicts, find_merge_remove_conflicts, ite_self, hdel, put_on_empty hm]

lemma merge_slot_gt (hr : ValidSlot fid t tgt r) (hm : ValidSlot fid t tgt m)
    (hgt : slotCompare r m > 0) :
    ∃ e, merge_message (slot_state r) m = .error e ∧ e.code = "bad_request.conflict" := by
  have hor : (is_add_type m || is_remove_type m) = true := by
    rcases vs_add_or_remove hm with h | h <;> simp [h]
  have hguard := compact_guard_of_none hm (dbGet_slot_compact hr)
  obtain ⟨e, hgmc, hcode⟩ := gmc_slot_gt hr hm hgt
  refine ⟨e, ?_, hcode⟩
  simp only [merge_message, hor, if_true, vs_ts_hash hm, hguard, hgmc,
    find_merge_add_conflicts, find_merge_remove_conflicts, ite_self]

lemma merge_slot_dup (hr : ValidSlot fid t tgt r) (hm : ValidSlot fid t tgt m)
    (heq0 : slotCompare r m = 0) :
    merge_message (slot_state r) m =
      .error { code := "bad_request.duplicate",
               message := "message has already been merged" } := by
  have hor : (is_add_type m || is_remove_type m) = true := by
    rcases vs_add_or_remove hm with h | h <;> simp [h]
  have hguard := compact_guard_of_none hm (dbGet_slot_compact hr)
  simp only [merge_message, hor, if_true, vs_ts_hash hm, hguard, gmc_slot_dup hr hm heq0,
    find_merge_add_conflicts, find_merge_remove_conflicts, ite_self]

lemma mergeStep_empty (hm : ValidSlot fid t tgt m) :
    mergeStep emptyState m = slot_state m := by
  unfold mergeStep
  rw [merge_from_empty hm]

lemma mergeStep_slot (hr : ValidSlot fid t tgt r) (hm : ValidSlot fid t tgt m)
    (hne : r ≠ m) : mergeStep (slot_state r) m = slot_state (max2 r m) := by
  rcases Int.lt_trichotomy (slotCompare r m) 0 with hc | hc | hc
  · unfold mergeStep
    rw [merge_slot_lt hr hm hc]
    unfold max2
    rw [if_neg (by omega)]
  · exact absurd hc (slotCompare_ne_zero hr hm hne)
  · obtain ⟨e, hmm, _⟩ := merge_slot_gt hr hm hc
    unfold mergeStep
    rw [hmm]
    unfold max2
    rw [if_pos hc]

lemma slotCompare_flip (hr : ValidSlot fid t tgt r) (hm : ValidSlot fid t tgt m) :
    slotCompare r m < 0 ↔ slotCompare m r > 0 := by
  have c1 := slotCompare_char r m (vs_hash20 hr) (vs_hash20 hm) (vs_ts_lt hr) (vs_ts_lt hm)
    (vs_kind hr) (vs_kind hm)
  have c2 := slotCompare_char m r (vs_hash20 hm) (vs_hash20 hr) (vs_ts_lt hm) (vs_ts_lt hr)
    (vs_kind hm) (vs_kind hr)
  rw [c1.2.2, c2.1]

lemma slotCompare_trans3 {a b c : Message} (ha : ValidSlot fid t tgt a)
    (hb : ValidSlot fid t tgt b) (hc : ValidSlot fid t tgt c)
    (h1 : slotCompare a b > 0) (h2 : slotCompare b c > 0) : slotCompare a c > 0 := by
  have cab := slotCompare_char a b (vs_hash20 ha) (vs_hash20 hb) (vs_ts_lt ha) (vs_ts_lt hb)
    (vs_kind ha) (vs_kind hb)
  have cbc := slotCompare_char b c (vs_hash20 hb) (vs_hash20 hc) (vs_ts_lt hb) (vs_ts_lt hc)
    (vs_kind hb) (vs_kind hc)
  have cac := slotCompare_char a c (vs_hash20 ha) (vs_hash20 hc) (vs_ts_lt ha) (vs_ts_lt hc)
    (vs_kind ha) (vs_kind hc)
  exact cac.1.mpr (tuple_newer_trans (cab.1.mp h1) (cbc.1.mp h2))

lemma mergeList_slot (l : List Message) :
    ∀ r : Message, ValidSlot fid t tgt r → (∀ x ∈ l, ValidSlot fid t tgt x) → r ∉ l →
      l.Nodup → mergeList (slot_state r) l = slot_state (l.foldl max2 r) := by
  induction l with
  | nil =>
    intro r _ _ _ _
    rfl
  | cons m l ih =>
    intro r hr hl hnin hnd
    have hm := hl m (List.mem_cons_self m l)
    have hne : r ≠ m := by
      intro h
      exact hnin (by rw [h]; exact List.mem_cons_self m l)
    have hr2 : ValidSlot fid t tgt (max2 r m) := by
      unfold max2
      split
      · exact hr
      · exact hm
    have hnin2 : max2 r m ∉ l := by
      unfold max2
      split
      · intro h
        exact hnin (List.mem_cons_of_mem m h)
      · exact (List.nodup_cons.mp hnd).1
    have hrec := ih (max2 r m) hr2 (fun x hx => hl x (List.mem_cons_of_mem m hx)) hnin2
      (List.nodup_cons.mp hnd).2
    unfold mergeList at hrec ⊢
    simp only [List.foldl_cons]
    rw [mergeStep_slot hr hm hne]
    exact hrec

lemma foldl_max2_spec (l : List Message) :
    ∀ r : Message, ValidSlot fid t tgt r → (∀ x ∈ l, ValidSlot fid t tgt x) →
      (r :: l).Nodup →
      (l.foldl max2 r ∈ r :: l ∧ ValidSlot fid t tgt (l.foldl max2 r) ∧
        ∀ y ∈ r :: l, y ≠ l.foldl max2 r → slotCompare (l.foldl max2 r) y > 0) := by
  induction l with
  | nil =>
    intro r hr _ _
    refine ⟨List.mem_singleton.mpr rfl, hr, ?_⟩
    intro y hy hne
    rw [List.mem_singleton.mp hy] at hne
    exact absurd rfl hne
  | cons m l ih =>
    intro r hr hl hnd
    have hm := hl m (List.mem_cons_self m l)
    have hnodup := List.nodup_cons.mp hnd
    have hrm : r ≠ m := fun h => hnodup.1 (by rw [h]; exact List.mem_cons_self m l)
    have hrl : r ∉ l := fun h => hnodup.1 (List.mem_cons_of_mem m h)
    have hml : m ∉ l := (List.nodup_cons.mp hnodup.2).1
    have hndl : l.Nodup := (List.nodup_cons.mp hnodup.2).2
    have hr2 : ValidSlot fid t tgt (max2 r m) := by
      unfold max2
      split
      · exact hr
      · exact hm
    have hnd2 : (max2 r m :: l).Nodup := by
      rw [List.nodup_cons]
      constructor
      · unfold max2
        split
        · exact hrl
        · exact hml
      · exact hndl
    obtain ⟨hmem, hval, hbeats⟩ := ih (max2 r m) hr2
      (fun x hx => hl x (List.mem_cons_of_mem m hx)) hnd2
    simp only [List.foldl_cons]
    -- the winner of the first two beats the loser of the first two
    have hpair : ∀ y, (y = r ∨ y = m) → y ≠ max2 r m →
        slotCompare (max2 r m) y > 0 := by
      intro y hy hney
      rcases Int.lt_trichotomy (slotCompare r m) 0 with hc | hc | hc
      · have hmax : max2 r m = m := by
          unfold max2
          rw [if_neg (by omega)]
        rcases hy with rfl | rfl
        · rw [hmax]
          exact (slotCompare_flip hr hm).mp hc
        · rw [hmax] at hney
          exact absurd rfl hney
      · exact absurd hc (slotCompare_ne_zero hr hm hrm)
      · have hmax : max2 r m = r := by
          unfold max2
          rw [if_pos hc]
        rcases hy with rfl | rfl
        · rw [hmax] at hney
          exact absurd rfl hney
        · rw [hmax]
          exact hc
    refine ⟨?_, hval, ?_⟩
    · rcases List.mem_cons.mp hmem with h | h
      · rw [h]
        unfold max2
        split
        · exact List.mem_cons_self r (m :: l)
        · exact List.mem_cons_of_mem r (List.mem_cons_self m l)
      · exact List.mem_cons_of_mem r (List.mem_cons_of_mem m h)
    · intro y hy hney
      rcases List.mem_cons.mp hy with hyr | hy2
      · rw [hyr] at hney ⊢
        by_cases hyx : r = max2 r m
        · exact hbeats r (List.mem_cons.mpr (Or.inl hyx)) hney
        · have h1 := hpair r (Or.inl rfl) hyx
          by_cases hfx : l.foldl max2 (max2 r m) = max2 r m
          · rw [hfx]
            exact h1
          · have h2 := hbeats (max2 r m) (List.mem_cons_self _ l) (fun h => hfx h.symm)
            exact slotCompare_trans3 hval hr2 hr h2 h1
      · rcases List.mem_cons.mp hy2 with hym | hy3
        · rw [hym] at hney ⊢
          by_cases hyx : m = max2 r m
          · exact hbeats m (List.mem_cons.mpr (Or.inl hyx)) hney
          · have h1 := hpair m (Or.inr rfl) hyx
            by_cases hfx : l.foldl max2 (max2 r m) = max2 r m
            · rw [hfx]
              exact h1
            · have h2 := hbeats (max2 r m) (List.mem_cons_self _ l) (fun h => hfx h.symm)
              exact slotCompare_trans3 hval hr2 hm h2 h1
        · exact hbeats y (List.mem_cons_of_mem _ hy3) hney

lemma mergeList_empty_max (l : List Message) (hne : l ≠ []) (hnd : l.Nodup)
    (hv : ∀ x ∈ l, ValidSlot fid t tgt x) :
    ∃ mx, mx ∈ l ∧ (∀ y ∈ l, y ≠ mx → slotCompare mx y > 0) ∧
      mergeList emptyState l = slot_state mx := by
  cases l with
  | nil => exact absurd rfl hne
  | cons m rest =>
    have hm := hv m (List.mem_cons_self m rest)
    have hnin : m ∉ rest := (List.nodup_cons.mp hnd).1
    have hndr : rest.Nodup := (List.nodup_cons.mp hnd).2
    have hvr : ∀ x ∈ rest, ValidSlot fid t tgt x :=
      fun x hx => hv x (List.mem_cons_of_mem m hx)
    obtain ⟨hmem, _, hbeats⟩ := foldl_max2_spec rest m hm hvr hnd
    refine ⟨rest.foldl max2 m, hmem, hbeats, ?_⟩
    unfold mergeList
    simp only [List.foldl_cons]
    have h1 : mergeStep emptyState m = slot_state m := mergeStep_empty hm
    rw [h1]
    exact mergeList_slot rest m hm hvr hnin hndr

end MergeLemmas

/-- C1: convergence — merging a finite set of distinct valid Link messages
addressing the same (fid, type, target) slot, in any permutation (losers
rejected with Conflict/Duplicate as they arise), leaves the store in the
same final state: the one whose sole retained message is the maximum of the
set under the comparator. -/
theorem C1_convergence (fid : Nat) (t : Bytes) (tgt : Nat) (l1 l2 : List Message)
    (hperm : l1.Perm l2) (hne : l1 ≠ []) (hnd : l1.Nodup)
    (hv : ∀ x ∈ l1, ValidSlot fid t tgt x) :
    mergeList emptyState l1 = mergeList emptyState l2 ∧
    ∃ mx, mx ∈ l1 ∧ (∀ y ∈ l1, y ≠ mx → slotCompare mx y > 0) ∧
      mergeList emptyState l1 = slot_state mx := by
  obtain ⟨mx1, hmem1, hbeats1, heq1⟩ := mergeList_empty_max l1 hne hnd hv
  have hne2 : l2 ≠ [] := by
    intro h
    rw [h] at hperm
    exact hne (List.Perm.eq_nil hperm)
  have hnd2 : l2.Nodup := hperm.nodup_iff.mp hnd
  have hv2 : ∀ x ∈ l2, ValidSlot fid t tgt x :=
    fun x hx => hv x (hperm.mem_iff.mpr hx)
  obtain ⟨mx2, hmem2, hbeats2, heq2⟩ := mergeList_empty_max l2 hne2 hnd2 hv2
  have hmx : mx1 = mx2 := by
    by_contra hc
    have h1 := hbeats1 mx2 (hperm.mem_iff.mpr hmem2) (fun h => hc h.symm)
    have h2 := hbeats2 mx1 (hperm.mem_iff.mp hmem1) hc
    have h3 := (slotCompare_flip (hv mx1 hmem1) (hv2 mx2 hmem2)).mpr h2
    omega
  refine ⟨?_, mx1, hmem1, hbeats1, heq1⟩
  rw [heq1, heq2, hmx]

/-! ### Conflict discovery on arbitrary states (C2, C7) -/

section ProbeLemmas

variable {fid : Nat} {t : Bytes} {tgt : Nat} {m : Message} {st : State}

lemma check_conflict_at_eval {ty : Nat} {key : Bytes} {desc : String} {acc : List Message}
    {tsh2 : Bytes} (h : dbGet st key = some tsh2) :
    check_conflict_at st ty key desc m (ts_hash_of m) acc =
      (if message_compare ty tsh2 (dataTypeOf m) (ts_hash_of m) > 0 then
        .error { code := "bad_request.conflict", message := desc }
       else if message_compare ty tsh2 (dataTypeOf m) (ts_hash_of m) = 0 then
        .error { code := "bad_request.duplicate",
                 message := "message has already been merged" }
       else
        match vec_to_u8_24 tsh2 with
        | .error e => .error e
        | .ok th24 =>
          match get_message st (fid32_of m) linkStorePostfixByte th24 with
          | some ex => .ok (acc ++ [ex])
          | none => .ok acc) := by
  unfold check_conflict_at
  rw [h]

lemma check_conflict_at_newer_g {ty : Nat} {key : Bytes} {desc : String} {acc : List Message}
    {tsh2 : Bytes} (h : dbGet st key = some tsh2)
    (hgt : message_compare ty tsh2 (dataTypeOf m) (ts_hash_of m) > 0) :
    check_conflict_at st ty key desc m (ts_hash_of m) acc =
      .error { code := "bad_request.conflict", message := desc } := by
  rw [check_conflict_at_eval h, if_pos hgt]

lemma check_conflict_at_dup_g {ty : Nat} {key : Bytes} {desc : String} {acc : List Message}
    {tsh2 : Bytes} (h : dbGet st key = some tsh2)
    (heq : message_compare ty tsh2 (dataTypeOf m) (ts_hash_of m) = 0) :
    check_conflict_at st ty key desc m (ts_hash_of m) acc =
      .error { code := "bad_request.duplicate",
               message := "message has already been merged" } := by
  rw [check_conflict_at_eval h, if_neg (by omega), if_pos heq]

lemma check_conflict_at_stale_g {ty : Nat} {key : Bytes} {desc : String} {acc : List Message}
    {tsh2 : Bytes} (h : dbGet st key = some tsh2) (h24 : tsh2.length = TS_HASH_LENGTH)
    (hlt : message_compare ty tsh2 (dataTypeOf m) (ts_hash_of m) < 0) :
    check_conflict_at st ty key desc m (ts_hash_of m) acc =
      .ok (acc ++ (resolve_hit st m (ty, tsh2)).toList) := by
  rw [check_conflict_at_eval h, if_neg (by omega), if_neg (by omega)]
  have hv : vec_to_u8_24 tsh2 = .ok tsh2 := by
    unfold vec_to_u8_24
    rw [if_pos h24]
  rw [hv]
  rcases hgm : get_message st (fid32_of m) linkStorePostfixByte tsh2 with _ | ex <;>
    simp [resolve_hit, hgm]

lemma spec_hits_cons_miss {ty : Nat} {key : Bytes} {desc : String}
    {rest : List (Nat × Bytes × String)} (h : dbGet st key = none) :
    spec_hits st ((ty, key, desc) :: rest) = spec_hits st rest := by
  unfold spec_hits
  simp [List.filterMap_cons, h]

lemma spec_hits_cons_hit {ty : Nat} {key : Bytes} {desc : String} {tsh2 : Bytes}
    {rest : List (Nat × Bytes × String)} (h : dbGet st key = some tsh2) :
    spec_hits st ((ty, key, desc) :: rest) = (ty, tsh2) :: spec_hits st rest := by
  unfold spec_hits
  simp [List.filterMap_cons, h]

lemma spec_hits_cons_miss_e (s : State) (y : Nat) (d : String)
    (r2 : List (Nat × Bytes × String)) {k : Bytes} (h : dbGet s k = none) :
    spec_hits s ((y, k, d) :: r2) = spec_hits s r2 :=
  spec_hits_cons_miss h

lemma spec_hits_cons_hit_e (s : State) (y : Nat) (d : String)
    (r2 : List (Nat × Bytes × String)) {k w : Bytes} (h : dbGet s k = some w) :
    spec_hits s ((y, k, d) :: r2) = (y, w) :: spec_hits s r2 :=
  spec_hits_cons_hit h

lemma check_conflict_at_newer_g_e (d : String) (a : List Message) {s : State} {y : Nat}
    {k : Bytes} {m2 : Message} {w : Bytes} (h : dbGet s k = some w)
    (hgt : message_compare y w (dataTypeOf m2) (ts_hash_of m2) > 0) :
    check_conflict_at s y k d m2 (ts_hash_of m2) a =
      .error { code := "bad_request.conflict", message := d } :=
  check_conflict_at_newer_g h hgt

lemma check_conflict_at_dup_g_e (d : String) (a : List Message) {s : State} {y : Nat}
    {k : Bytes} {m2 : Message} {w : Bytes} (h : dbGet s k = some w)
    (heq : message_compare y w (dataTypeOf m2) (ts_hash_of m2) = 0) :
    check_conflict_at s y k d m2 (ts_hash_of m2) a =
      .error { code := "bad_request.duplicate",
               message := "message has already been merged" } :=
  check_conflict_at_dup_g h heq

lemma run_checks_all_stale (ps : List (Nat × Bytes × String)) :
    ∀ acc : List Message,
      (∀ p ∈ spec_hits st ps, (p.2 : Bytes).length = TS_HASH_LENGTH) →
      (∀ p ∈ spec_hits st ps,
        message_compare p.1 p.2 (dataTypeOf m) (ts_hash_of m) < 0) →
      run_checks st m (ts_hash_of m) ps acc =
        .ok (acc ++ (spec_hits st ps).filterMap (resolve_hit st m)) := by
  induction ps with
  | nil =>
    intro acc _ _
    simp [run_checks, spec_hits]
  | cons p rest ih =>
    intro acc h24 hst
    obtain ⟨ty, key, desc⟩ := p
    rcases h : dbGet st key with _ | tsh
    · have hseg := spec_hits_cons_miss_e st ty desc rest h
      rw [hseg] at h24 hst ⊢
      simp only [run_checks, check_conflict_at_none h]
      exact ih acc h24 hst
    · have hseg := spec_hits_cons_hit_e st ty desc rest h
      have hmem : (ty, tsh) ∈ spec_hits st ((ty, key, desc) :: rest) := by
        rw [hseg]
        exact List.mem_cons_self _ _
      have h24h := h24 _ hmem
      have hsth := hst _ hmem
      simp only [run_checks, check_conflict_at_stale_g h h24h hsth]
      rw [ih (acc ++ (resolve_hit st m (ty, tsh)).toList)
        (fun p hp => h24 p (by rw [hseg]; exact List.mem_cons_of_mem _ hp))
        (fun p hp => hst p (by rw [hseg]; exact List.mem_cons_of_mem _ hp))]
      rw [hseg]
      rcases hres : resolve_hit st m (ty, tsh) with _ | ex <;>
        simp [List.filterMap_cons, hres]

lemma run_checks_conflict (ps : List (Nat × Bytes × String)) :
    ∀ acc : List Message,
      (∀ p ∈ spec_hits st ps, (p.2 : Bytes).length = TS_HASH_LENGTH) →
      (∀ p ∈ spec_hits st ps,
        ¬ message_compare p.1 p.2 (dataTypeOf m) (ts_hash_of m) = 0) →
      (∃ p ∈ spec_hits st ps,
        message_compare p.1 p.2 (dataTypeOf m) (ts_hash_of m) > 0) →
      ∃ e, run_checks st m (ts_hash_of m) ps acc = .error e ∧
        e.code = "bad_request.conflict" := by
  induction ps with
  | nil =>
    intro acc _ _ hex
    simp [spec_hits] at hex
  | cons p rest ih =>
    intro acc h24 hnd hex
    obtain ⟨ty, key, desc⟩ := p
    rcases h : dbGet st key with _ | tsh
    · have hseg := spec_hits_cons_miss_e st ty desc rest h
      rw [hseg] at h24 hnd hex
      simp only [run_checks, check_conflict_at_none h]
      exact ih acc h24 hnd hex
    · have hseg := spec_hits_cons_hit_e st ty desc rest h
      have hmem : (ty, tsh) ∈ spec_hits st ((ty, key, desc) :: rest) := by
        rw [hseg]
        exact List.mem_cons_self _ _
      rcases Int.lt_trichotomy
        (message_compare ty tsh (dataTypeOf m) (ts_hash_of m)) 0 with hc | hc | hc
      · simp only [run_checks, check_conflict_at_stale_g h (h24 _ hmem) hc]
        apply ih
        · intro p hp
          exact h24 p (by rw [hseg]; exact List.mem_cons_of_mem _ hp)
        · intro p hp
          exact hnd p (by rw [hseg]; exact List.mem_cons_of_mem _ hp)
        · obtain ⟨q, hq, hqgt⟩ := hex
          rw [hseg] at hq
          rcases List.mem_cons.mp hq with hq1 | hq2
          · rw [hq1] at hqgt
            simp at hqgt
            omega
          · exact ⟨q, hq2, hqgt⟩
      · exact absurd hc (hnd _ hmem)
      · have hchk := check_conflict_at_newer_g_e desc acc h hc
        exact ⟨{ code := "bad_request.conflict", message := desc },
          by simp only [run_checks, hchk], rfl⟩

lemma run_checks_dup (ps : List (Nat × Bytes × String)) :
    ∀ acc : List Message,
      (∀ p ∈ spec_hits st ps, (p.2 : Bytes).length = TS_HASH_LENGTH) →
      (∀ p ∈ spec_hits st ps,
        ¬ message_compare p.1 p.2 (dataTypeOf m) (ts_hash_of m) > 0) →
      (∃ p ∈ spec_hits st ps,
        message_compare p.1 p.2 (dataTypeOf m) (ts_hash_of m) = 0) →
      run_checks st m (ts_hash_of m) ps acc =
        .error { code := "bad_request.duplicate",
                 message := "message has already been merged" } := by
  induction ps with
  | nil =>
    intro acc _ _ hex
    simp [spec_hits] at hex
  | cons p rest ih =>
    intro acc h24 hng hex
    obtain ⟨ty, key, desc⟩ := p
    rcases h : dbGet st key with _ | tsh
    · have hseg := spec_hits_cons_miss_e st ty desc rest h
      rw [hseg] at h24 hng hex
      simp only [run_checks, check_conflict_at_none h]
      exact ih acc h24 hng hex
    · have hseg := spec_hits_cons_hit_e st ty desc rest h
      have hmem : (ty, tsh) ∈ spec_hits st ((ty, key, desc) :: rest) := by
        rw [hseg]
        exact List.mem_cons_self _ _
      rcases Int.lt_trichotomy
        (message_compare ty tsh (dataTypeOf m) (ts_hash_of m)) 0 with hc | hc | hc
      · simp only [run_checks, check_conflict_at_stale_g h (h24 _ hmem) hc]
        apply ih
        · intro p hp
          exact h24 p (by rw [hseg]; exact List.mem_cons_of_mem _ hp)
        · intro p hp
          exact hng p (by rw [hseg]; exact List.mem_cons_of_mem _ hp)
        · obtain ⟨q, hq, hqeq⟩ := hex
          rw [hseg] at hq
          rcases List.mem_cons.mp hq with hq1 | hq2
          · rw [hq1] at hqeq
            simp at hqeq
            omega
          · exact ⟨q, hq2, hqeq⟩
      · have hchk := check_conflict_at_dup_g_e desc acc h hc
        simp only [run_checks, hchk]
      · exact absurd hc (hng _ hmem)

/-- The four probes `get_merge_conflicts` performs, in probe order. -/
lemma gmc_eq_run_checks (hm : ValidSlot fid t tgt m) :
    get_merge_conflicts st m (ts_hash_of m) =
      run_checks st m (ts_hash_of m)
        [(remove_message_type, slot_remove_key fid t tgt true,
           "message conflicts with a more recent remove"),
         (add_message_type, slot_add_key fid t tgt true,
           "message conflicts with a more recent add"),
         (remove_message_type, slot_remove_key fid t tgt false,
           "message conflicts with a more recent remove"),
         (add_message_type, slot_add_key fid t tgt false,
           "message conflicts with a more recent add")] [] := by
  simp only [get_merge_conflicts, get_default_merge_conflicts, make_add_key, make_remove_key,
    vs_add_key hm, vs_remove_key hm, run_checks]
  cases hc1 : check_conflict_at st remove_message_type (slot_remove_key fid t tgt true)
      "message conflicts with a more recent remove" m (ts_hash_of m) [] with
  | error e => simp [hc1]
  | ok c1 =>
    cases hc2 : check_conflict_at st add_message_type (slot_add_key fid t tgt true)
        "message conflicts with a more recent add" m (ts_hash_of m) c1 with
    | error e => simp [hc1, hc2]
    | ok c2 =>
      cases hc3 : check_conflict_at st remove_message_type (slot_remove_key fid t tgt false)
          "message conflicts with a more recent remove" m (ts_hash_of m) c2 with
      | error e => simp [hc1, hc2, hc3]
      | ok c3 =>
        cases hc4 : check_conflict_at st add_message_type (slot_add_key fid t tgt false)
            "message conflicts with a more recent add" m (ts_hash_of m) c3 with
        | error e => simp [hc1, hc2, hc3, hc4, run_checks]
        | ok c4 => simp [hc1, hc2, hc3, hc4, run_checks]

lemma probe_hits_eq_spec (krp kap kru kau : Bytes) :
    probe_hits st krp kap kru kau =
      spec_hits st
        [(remove_message_type, krp, "message conflicts with a more recent remove"),
         (add_message_type, kap, "message conflicts with a more recent add"),
         (remove_message_type, kru, "message conflicts with a more recent remove"),
         (add_message_type, kau, "message conflicts with a more recent add")] := by
  unfold probe_hits spec_hits
  cases h1 : dbGet st krp <;> cases h2 : dbGet st kap <;> cases h3 : dbGet st kru <;>
    cases h4 : dbGet st kau <;> simp [List.filterMap_cons, h1, h2, h3, h4]

end ProbeLemmas

lemma probe_hits_eq_spec_s (s : State) (krp kap kru kau : Bytes) :
    probe_hits s krp kap kru kau =
      spec_hits s
        [(remove_message_type, krp, "message conflicts with a more recent remove"),
         (add_message_type, kap, "message conflicts with a more recent add"),
         (remove_message_type, kru, "message conflicts with a more recent remove"),
         (add_message_type, kau, "message conflicts with a more recent add")] :=
  probe_hits_eq_spec krp kap kru kau

/-- C2: conflict discovery probes the Removes and Adds Sets at both the
padded and the unpadded (legacy) key for the incoming message's slot, in
that order; on well-formed entries (24-byte stored tsHashes), if every hit
is strictly older than the incoming message the merge records exactly the
resolvable hits as losers; a strictly newer hit (with no equal hit) rejects
with the Conflict error; an equal hit (with no newer hit) rejects with the
Duplicate error; and any rejection leaves the store unchanged, since the
batch is never committed. -/
theorem C2_conflict_discovery (fid : Nat) (t : Bytes) (tgt : Nat) (st : State) (m : Message)
    (hm : ValidSlot fid t tgt m)
    (h24 : ∀ p ∈ probe_hits st (slot_remove_key fid t tgt true) (slot_add_key fid t tgt true)
        (slot_remove_key fid t tgt false) (slot_add_key fid t tgt false),
      (p.2 : Bytes).length = TS_HASH_LENGTH) :
    ((∀ p ∈ probe_hits st (slot_remove_key fid t tgt true) (slot_add_key fid t tgt true)
        (slot_remove_key fid t tgt false) (slot_add_key fid t tgt false),
        message_compare p.1 p.2 (dataTypeOf m) (ts_hash_of m) < 0) →
      get_merge_conflicts st m (ts_hash_of m) =
        .ok ((probe_hits st (slot_remove_key fid t tgt true) (slot_add_key fid t tgt true)
          (slot_remove_key fid t tgt false) (slot_add_key fid t tgt false)).filterMap
            (resolve_hit st m))) ∧
    ((∃ p ∈ probe_hits st (slot_remove_key fid t tgt true) (slot_add_key fid t tgt true)
        (slot_remove_key fid t tgt false) (slot_add_key fid t tgt false),
        message_compare p.1 p.2 (dataTypeOf m) (ts_hash_of m) > 0) →
      (¬ ∃ p ∈ probe_hits st (slot_remove_key fid t tgt true) (slot_add_key fid t tgt true)
        (slot_remove_key fid t tgt false) (slot_add_key fid t tgt false),
        message_compare p.1 p.2 (dataTypeOf m) (ts_hash_of m) = 0) →
      ∃ e, get_merge_conflicts st m (ts_hash_of m) = .error e ∧
        e.code = "bad_request.conflict") ∧
    ((∃ p ∈ probe_hits st (slot_remove_key fid t tgt true) (slot_add_key fid t tgt true)
        (slot_remove_key fid t tgt false) (slot_add_key fid t tgt false),
        message_compare p.1 p.2 (dataTypeOf m) (ts_hash_of m) = 0) →
      (¬ ∃ p ∈ probe_hits st (slot_remove_key fid t tgt true) (slot_add_key fid t tgt true)
        (slot_remove_key fid t tgt false) (slot_add_key fid t tgt false),
        message_compare p.1 p.2 (dataTypeOf m) (ts_hash_of m) > 0) →
      get_merge_conflicts st m (ts_hash_of m) =
        .error { code := "bad_request.duplicate",
                 message := "message has already been merged" }) ∧
    (∀ e, merge_message st m = .error e → mergeStep st m = st) := by
  have hps := probe_hits_eq_spec_s st (slot_remove_key fid t tgt true)
    (slot_add_key fid t tgt true) (slot_remove_key fid t tgt false)
    (slot_add_key fid t tgt false)
  rw [hps] at h24
  refine ⟨?_, ?_, ?_, ?_⟩
  · intro hst
    rw [hps] at hst ⊢
    rw [gmc_eq_run_checks hm, run_checks_all_stale _ [] h24 hst]
    simp
  · intro hex hnd
    rw [hps] at hex hnd
    rw [gmc_eq_run_checks hm]
    exact run_checks_conflict _ [] h24 (fun p hp heq => hnd ⟨p, hp, heq⟩) hex
  · intro hex hng
    rw [hps] at hex hng
    rw [gmc_eq_run_checks hm]
    exact run_checks_dup _ [] h24 (fun p hp hgt => hng ⟨p, hp, hgt⟩) hex
  · intro e he
    unfold mergeStep
    rw [he]

/-- C2 witness: with a stale Add stored at the padded key (with its primary
record), an incoming newer Remove discovers exactly that Add as a loser. -/
theorem C2_conflict_discovery_witness :
    get_merge_conflicts
        (putMsg (putRaw emptyState
            (slot_add_key 6833 [102, 111, 108, 108, 111, 119] 1 true)
            (ts_hash_of ⟨some ⟨6833, 5, 100,
              some (Body.linkBody ⟨[102, 111, 108, 108, 111, 119],
                some (Target.targetFid 1)⟩)⟩, List.replicate 20 170, 1⟩))
          (slot_primary_key 6833
            (ts_hash_of ⟨some ⟨6833, 5, 100,
              some (Body.linkBody ⟨[102, 111, 108, 108, 111, 119],
                some (Target.targetFid 1)⟩)⟩, List.replicate 20 170, 1⟩))
          ⟨some ⟨6833, 5, 100,
            some (Body.linkBody ⟨[102, 111, 108, 108, 111, 119],
              some (Target.targetFid 1)⟩)⟩, List.replicate 20 170, 1⟩)
        ⟨some ⟨6833, 6, 101,
          some (Body.linkBody ⟨[102, 111, 108, 108, 111, 119],
            some (Target.targetFid 1)⟩)⟩, List.replicate 20 187, 1⟩
        (ts_hash_of ⟨some ⟨6833, 6, 101,
          some (Body.linkBody ⟨[102, 111, 108, 108, 111, 119],
            some (Target.targetFid 1)⟩)⟩, List.replicate 20 187, 1⟩) =
      .ok [⟨some ⟨6833, 5, 100,
        some (Body.linkBody ⟨[102, 111, 108, 108, 111, 119],
          some (Target.targetFid 1)⟩)⟩, List.replicate 20 170, 1⟩] := by
  have h := C2_conflict_discovery 6833 [102, 111, 108, 108, 111, 119] 1
    (putMsg (putRaw emptyState
        (slot_add_key 6833 [102, 111, 108, 108, 111, 119] 1 true)
        (ts_hash_of ⟨some ⟨6833, 5, 100,
          some (Body.linkBody ⟨[102, 111, 108, 108, 111, 119],
            some (Target.targetFid 1)⟩)⟩, List.replicate 20 170, 1⟩))
      (slot_primary_key 6833
        (ts_hash_of ⟨some ⟨6833, 5, 100,
          some (Body.linkBody ⟨[102, 111, 108, 108, 111, 119],
            some (Target.targetFid 1)⟩)⟩, List.replicate 20 170, 1⟩))
      ⟨some ⟨6833, 5, 100,
        some (Body.linkBody ⟨[102, 111, 108, 108, 111, 119],
          some (Target.targetFid 1)⟩)⟩, List.replicate 20 170, 1⟩)
    ⟨some ⟨6833, 6, 101,
      some (Body.linkBody ⟨[102, 111, 108, 108, 111, 119],
        some (Target.targetFid 1)⟩)⟩, List.replicate 20 187, 1⟩
    (by decide) (by decide)
  rw [h.1 (by decide)]
  rfl

/-- C7: the repair path — whenever conflict discovery finds only stale Set
entries, it succeeds even if some entry's tsHash has no primary message
record (such dangling entries are logged and skipped, not errors), and every
recorded loser comes from an entry whose primary record resolved. -/
theorem C7_repair_path (fid : Nat) (t : Bytes) (tgt : Nat) (st : State) (m : Message)
    (hm : ValidSlot fid t tgt m)
    (h24 : ∀ p ∈ probe_hits st (slot_remove_key fid t tgt true) (slot_add_key fid t tgt true)
        (slot_remove_key fid t tgt false) (slot_add_key fid t tgt false),
      (p.2 : Bytes).length = TS_HASH_LENGTH)
    (hstale : ∀ p ∈ probe_hits st (slot_remove_key fid t tgt true) (slot_add_key fid t tgt true)
        (slot_remove_key fid t tgt false) (slot_add_key fid t tgt false),
      message_compare p.1 p.2 (dataTypeOf m) (ts_hash_of m) < 0)
    (hdangling : ∃ p ∈ probe_hits st (slot_remove_key fid t tgt true)
        (slot_add_key fid t tgt true) (slot_remove_key fid t tgt false)
        (slot_add_key fid t tgt false), resolve_hit st m p = none) :
    ∃ L, get_merge_conflicts st m (ts_hash_of m) = .ok L ∧
      ∀ c ∈ L, ∃ p ∈ probe_hits st (slot_remove_key fid t tgt true)
        (slot_add_key fid t tgt true) (slot_remove_key fid t tgt false)
        (slot_add_key fid t tgt false), resolve_hit st m p = some c := by
  have hps := probe_hits_eq_spec_s st (slot_remove_key fid t tgt true)
    (slot_add_key fid t tgt true) (slot_remove_key fid t tgt false)
    (slot_add_key fid t tgt false)
  rw [hps] at h24 hstale
  refine ⟨(probe_hits st (slot_remove_key fid t tgt true) (slot_add_key fid t tgt true)
    (slot_remove_key fid t tgt false) (slot_add_key fid t tgt false)).filterMap
      (resolve_hit st m), ?_, ?_⟩
  · rw [hps, gmc_eq_run_checks hm, run_checks_all_stale _ [] h24 hstale]
    simp
  · intro c hc
    obtain ⟨p, hp, hres⟩ := List.mem_filterMap.mp hc
    exact ⟨p, hp, hres⟩

/-- C7 witness: a dangling legacy (unpadded) Adds Set entry — stale tsHash
with no primary record — is skipped without an error, yielding an empty
loser list. -/
theorem C7_repair_path_witness :
    ∃ L, get_merge_conflicts
        (putRaw emptyState (slot_add_key 6833 [102, 111, 108, 108, 111, 119] 1 false)
          (ts_hash_of ⟨some ⟨6833, 5, 100,
            some (Body.linkBody ⟨[102, 111, 108, 108, 111, 119],
              some (Target.targetFid 1)⟩)⟩, List.replicate 20 170, 1⟩))
        ⟨some ⟨6833, 6, 101,
          some (Body.linkBody ⟨[102, 111, 108, 108, 111, 119],
            some (Target.targetFid 1)⟩)⟩, List.replicate 20 187, 1⟩
        (ts_hash_of ⟨some ⟨6833, 6, 101,
          some (Body.linkBody ⟨[102, 111, 108, 108, 111, 119],
            some (Target.targetFid 1)⟩)⟩, List.replicate 20 187, 1⟩) = .ok L ∧
      ∀ c ∈ L, ∃ p ∈ probe_hits
        (putRaw emptyState (slot_add_key 6833 [102, 111, 108, 108, 111, 119] 1 false)
          (ts_hash_of ⟨some ⟨6833, 5, 100,
            some (Body.linkBody ⟨[102, 111, 108, 108, 111, 119],
              some (Target.targetFid 1)⟩)⟩, List.replicate 20 170, 1⟩))
        (slot_remove_key 6833 [102, 111, 108, 108, 111, 119] 1 true)
        (slot_add_key 6833 [102, 111, 108, 108, 111, 119] 1 true)
        (slot_remove_key 6833 [102, 111, 108, 108, 111, 119] 1 false)
        (slot_add_key 6833 [102, 111, 108, 108, 111, 119] 1 false),
        resolve_hit
          (putRaw emptyState (slot_add_key 6833 [102, 111, 108, 108, 111, 119] 1 false)
            (ts_hash_of ⟨some ⟨6833, 5, 100,
              some (Body.linkBody ⟨[102, 111, 108, 108, 111, 119],
                some (Target.targetFid 1)⟩)⟩, List.replicate 20 170, 1⟩))
          ⟨some ⟨6833, 6, 101,
            some (Body.linkBody ⟨[102, 111, 108, 108, 111, 119],
              some (Target.targetFid 1)⟩)⟩, List.replicate 20 187, 1⟩ p = some c :=
  C7_repair_path 6833 [102, 111, 108, 108, 111, 119] 1
    (putRaw emptyState (slot_add_key 6833 [102, 111, 108, 108, 111, 119] 1 false)
      (ts_hash_of ⟨some ⟨6833, 5, 100,
        some (Body.linkBody ⟨[102, 111, 108, 108, 111, 119],
          some (Target.targetFid 1)⟩)⟩, List.replicate 20 170, 1⟩))
    ⟨some ⟨6833, 6, 101,
      some (Body.linkBody ⟨[102, 111, 108, 108, 111, 119],
        some (Target.targetFid 1)⟩)⟩, List.replicate 20 187, 1⟩
    (by decide) (by decide) (by decide) (by decide)

/-! ### Point lookups (C4) -/

section LookupLemmas

variable {st : State} {fid : Nat} {t : Bytes} {tgt : Option Target}

lemma opt24_some {o : Option Bytes} {th : Bytes} (h24 : opt24 o = true) (h : o = some th) :
    th.length = TS_HASH_LENGTH := by
  rw [h] at h24
  simpa [opt24] using h24

lemma store_get_add_eval {kp : Bytes}
    (hkp : link_add_key (fid % 2 ^ 32) ⟨t, tgt⟩ true = .ok kp)
    (h24 : opt24 (dbGet st kp) = true) :
    store_get_add st (partialLinkMessage linkAddType fid t tgt) =
      .ok ((dbGet st kp).bind
        fun th => get_message st (fid % 2 ^ 32) linkStorePostfixByte th) := by
  have hmk : make_add_key (partialLinkMessage linkAddType fid t tgt) = .ok kp := by
    unfold make_add_key make_add_key_padded partialLinkMessage
    simpa using hkp
  have hfid : fid32_of (partialLinkMessage linkAddType fid t tgt) = fid % 2 ^ 32 := rfl
  rcases h : dbGet st kp with _ | th
  · simp [store_get_add, hmk, h]
  · have hlen := opt24_some h24 h
    have hv : vec_to_u8_24 th = .ok th := by
      unfold vec_to_u8_24
      rw [if_pos hlen]
    simp [store_get_add, hmk, hfid, h, hv]

lemma store_get_remove_eval {krp : Bytes}
    (hkrp : link_remove_key (fid % 2 ^ 32) ⟨t, tgt⟩ true = .ok krp)
    (h24 : opt24 (dbGet st krp) = true) :
    store_get_remove st (partialLinkMessage linkRemoveType fid t tgt) =
      .ok ((dbGet st krp).bind
        fun th => get_message st (fid % 2 ^ 32) linkStorePostfixByte th) := by
  have hmk : make_remove_key (partialLinkMessage linkRemoveType fid t tgt) = .ok krp := by
    unfold make_remove_key make_remove_key_padded partialLinkMessage
    simpa using hkrp
  have hfid : fid32_of (partialLinkMessage linkRemoveType fid t tgt) = fid % 2 ^ 32 := rfl
  rcases h : dbGet st krp with _ | th
  · simp [store_get_remove, hmk, h]
  · have hlen := opt24_some h24 h
    have hv : vec_to_u8_24 th = .ok th := by
      unfold vec_to_u8_24
      rw [if_pos hlen]
    simp [store_get_remove, hmk, hfid, h, hv]

lemma get_link_add_eval {kp ku : Bytes}
    (hkp : link_add_key (fid % 2 ^ 32) ⟨t, tgt⟩ true = .ok kp)
    (hku : link_add_key (fid % 2 ^ 32) ⟨t, tgt⟩ false = .ok ku)
    (h24p : opt24 (dbGet st kp) = true) (h24u : opt24 (dbGet st ku) = true) :
    get_link_add st fid t tgt =
      .ok (Option.or
        ((dbGet st kp).bind
          fun th => get_message st (fid % 2 ^ 32) linkStorePostfixByte th)
        ((dbGet st ku).bind
          fun th => get_message st (fid % 2 ^ 32) linkStorePostfixByte th)) := by
  have hsga := store_get_add_eval hkp h24p
  have hmku : make_add_key_padded (partialLinkMessage linkAddType fid t tgt) false = .ok ku := by
    unfold make_add_key_padded partialLinkMessage
    simpa using hku
  have hfid : fid32_of (partialLinkMessage linkAddType fid t tgt) = fid % 2 ^ 32 := rfl
  rcases hp : (dbGet st kp).bind
      (fun th => get_message st (fid % 2 ^ 32) linkStorePostfixByte th) with _ | mm
  · rw [hp] at hsga
    unfold get_link_add
    simp only [hsga, hmku, hfid]
    rcases h : dbGet st ku with _ | th
    · rfl
    · have hlen := opt24_some h24u h
      have hv : vec_to_u8_24 th = .ok th := by
        unfold vec_to_u8_24
        rw [if_pos hlen]
      simp [hv, Option.or]
  · rw [hp] at hsga
    unfold get_link_add
    simp only [hsga, Option.or]

lemma get_link_remove_eval {krp kru : Bytes}
    (hkrp : link_remove_key (fid % 2 ^ 32) ⟨t, tgt⟩ true = .ok krp)
    (hkru : link_remove_key (fid % 2 ^ 32) ⟨t, tgt⟩ false = .ok kru)
    (h24p : opt24 (dbGet st krp) = true) (h24u : opt24 (dbGet st kru) = true) :
    get_link_remove st fid t tgt =
      .ok (Option.or
        ((dbGet st krp).bind
          fun th => get_message st (fid % 2 ^ 32) linkStorePostfixByte th)
        ((dbGet st kru).bind
          fun th => get_message st (fid % 2 ^ 32) linkStorePostfixByte th)) := by
  have hsga := store_get_remove_eval hkrp h24p
  have hmku : make_remove_key_padded (partialLinkMessage linkRemoveType fid t tgt) false =
      .ok kru := by
    unfold make_remove_key_padded partialLinkMessage
    simpa using hkru
  have hfid : fid32_of (partialLinkMessage linkRemoveType fid t tgt) = fid % 2 ^ 32 := rfl
  rcases hp : (dbGet st krp).bind
      (fun th => get_message st (fid % 2 ^ 32) linkStorePostfixByte th) with _ | mm
  · rw [hp] at hsga
    unfold get_link_remove
    simp only [hsga, hmku, hfid]
    rcases h : dbGet st kru with _ | th
    · rfl
    · have hlen := opt24_some h24u h
      have hv : vec_to_u8_24 th = .ok th := by
        unfold vec_to_u8_24
        rw [if_pos hlen]
      simp [hv, Option.or]
  · rw [hp] at hsga
    unfold get_link_remove
    simp only [hsga, Option.or]

end LookupLemmas

/-- C4: `get_link_add` (and symmetrically `get_link_remove`) first probes
the padded Set key and resolves the stored tsHash into the primary record;
on a miss (including a dangling Set entry) it probes the unpadded legacy key
and resolves the tsHash stored there; it returns `None` exactly when both
probes fail to produce a message. -/
theorem C4_point_lookup (st : State) (fid : Nat) (t : Bytes) (tgt : Option Target)
    (kp ku krp kru : Bytes)
    (hkp : link_add_key (fid % 2 ^ 32) ⟨t, tgt⟩ true = .ok kp)
    (hku : link_add_key (fid % 2 ^ 32) ⟨t, tgt⟩ false = .ok ku)
    (hkrp : link_remove_key (fid % 2 ^ 32) ⟨t, tgt⟩ true = .ok krp)
    (hkru : link_remove_key (fid % 2 ^ 32) ⟨t, tgt⟩ false = .ok kru)
    (h24p : opt24 (dbGet st kp) = true) (h24u : opt24 (dbGet st ku) = true)
    (h24rp : opt24 (dbGet st krp) = true) (h24ru : opt24 (dbGet st kru) = true) :
    (get_link_add st fid t tgt =
      .ok (Option.or
        ((dbGet st kp).bind
          fun th => get_message st (fid % 2 ^ 32) linkStorePostfixByte th)
        ((dbGet st ku).bind
          fun th => get_message st (fid % 2 ^ 32) linkStorePostfixByte th))) ∧
    (get_link_add st fid t tgt = .ok none ↔
      ((dbGet st kp).bind
        (fun th => get_message st (fid % 2 ^ 32) linkStorePostfixByte th)) = none ∧
      ((dbGet st ku).bind
        (fun th => get_message st (fid % 2 ^ 32) linkStorePostfixByte th)) = none) ∧
    (get_link_remove st fid t tgt =
      .ok (Option.or
        ((dbGet st krp).bind
          fun th => get_message st (fid % 2 ^ 32) linkStorePostfixByte th)
        ((dbGet st kru).bind
          fun th => get_message st (fid % 2 ^ 32) linkStorePostfixByte th))) ∧
    (get_link_remove st fid t tgt = .ok none ↔
      ((dbGet st krp).bind
        (fun th => get_message st (fid % 2 ^ 32) linkStorePostfixByte th)) = none ∧
      ((dbGet st kru).bind
        (fun th => get_message st (fid % 2 ^ 32) linkStorePostfixByte th)) = none) := by
  have ha := get_link_add_eval hkp hku h24p h24u
  have hr := get_link_remove_eval hkrp hkru h24rp h24ru
  refine ⟨ha, ?_, hr, ?_⟩
  · rw [ha]
    constructor
    · intro h
      have h2 := Except.ok.inj h
      rcases o1 : (dbGet st kp).bind
          (fun th => get_message st (fid % 2 ^ 32) linkStorePostfixByte th) with _ | m1
      · rcases o2 : (dbGet st ku).bind
            (fun th => get_message st (fid % 2 ^ 32) linkStorePostfixByte th) with _ | m2
        · exact ⟨rfl, rfl⟩
        · rw [o1, o2] at h2
          simp [Option.or] at h2
      · rw [o1] at h2
        simp [Option.or] at h2
    · rintro ⟨h1, h2⟩
      rw [h1, h2]
      rfl
  · rw [hr]
    constructor
    · intro h
      have h2 := Except.ok.inj h
      rcases o1 : (dbGet st krp).bind
          (fun th => get_message st (fid % 2 ^ 32) linkStorePostfixByte th) with _ | m1
      · rcases o2 : (dbGet st kru).bind
            (fun th => get_message st (fid % 2 ^ 32) linkStorePostfixByte th) with _ | m2
        · exact ⟨rfl, rfl⟩
        · rw [o1, o2] at h2
          simp [Option.or] at h2
      · rw [o1] at h2
        simp [Option.or] at h2
    · rintro ⟨h1, h2⟩
      rw [h1, h2]
      rfl

/-- C4 witness: with only the legacy unpadded Adds Set entry present (plus
its primary record), `get_link_add` falls through the padded probe and
returns the message, while `get_link_remove` returns `none`. -/
theorem C4_point_lookup_witness :
    get_link_add
        (putMsg
          (putRaw emptyState (slot_add_key 6833 [102, 111, 108] 1 false)
            (ts_hash_of ⟨some ⟨6833, 5, 100, some (Body.linkBody ⟨[102, 111, 108],
              some (Target.targetFid 1)⟩)⟩, List.replicate 20 170, 1⟩))
          (slot_primary_key 6833
            (ts_hash_of ⟨some ⟨6833, 5, 100, some (Body.linkBody ⟨[102, 111, 108],
              some (Target.targetFid 1)⟩)⟩, List.replicate 20 170, 1⟩))
          ⟨some ⟨6833, 5, 100, some (Body.linkBody ⟨[102, 111, 108],
            some (Target.targetFid 1)⟩)⟩, List.replicate 20 170, 1⟩)
        6833 [102, 111, 108] (some (Target.targetFid 1)) =
      .ok (some ⟨some ⟨6833, 5, 100, some (Body.linkBody ⟨[102, 111, 108],
        some (Target.targetFid 1)⟩)⟩, List.replicate 20 170, 1⟩) ∧
    get_link_remove
        (putMsg
          (putRaw emptyState (slot_add_key 6833 [102, 111, 108] 1 false)
            (ts_hash_of ⟨some ⟨6833, 5, 100, some (Body.linkBody ⟨[102, 111, 108],
              some (Target.targetFid 1)⟩)⟩, List.replicate 20 170, 1⟩))
          (slot_primary_key 6833
            (ts_hash_of ⟨some ⟨6833, 5, 100, some (Body.linkBody ⟨[102, 111, 108],
              some (Target.targetFid 1)⟩)⟩, List.replicate 20 170, 1⟩))
          ⟨some ⟨6833, 5, 100, some (Body.linkBody ⟨[102, 111, 108],
            some (Target.targetFid 1)⟩)⟩, List.replicate 20 170, 1⟩)
        6833 [102, 111, 108] (some (Target.targetFid 1)) = .ok none := by
  have h := C4_point_lookup
      (putMsg
        (putRaw emptyState (slot_add_key 6833 [102, 111, 108] 1 false)
          (ts_hash_of ⟨some ⟨6833, 5, 100, some (Body.linkBody ⟨[102, 111, 108],
            some (Target.targetFid 1)⟩)⟩, List.replicate 20 170, 1⟩))
        (slot_primary_key 6833
          (ts_hash_of ⟨some ⟨6833, 5, 100, some (Body.linkBody ⟨[102, 111, 108],
            some (Target.targetFid 1)⟩)⟩, List.replicate 20 170, 1⟩))
        ⟨some ⟨6833, 5, 100, some (Body.linkBody ⟨[102, 111, 108],
          some (Target.targetFid 1)⟩)⟩, List.replicate 20 170, 1⟩)
      6833 [102, 111, 108] (some (Target.targetFid 1))
      (slot_add_key 6833 [102, 111, 108] 1 true)
      (slot_add_key 6833 [102, 111, 108] 1 false)
      (slot_remove_key 6833 [102, 111, 108] 1 true)
      (slot_remove_key 6833 [102, 111, 108] 1 false)
      rfl rfl rfl rfl
      (by decide) (by decide) (by decide) (by decide)
  refine ⟨?_, ?_⟩
  · rw [h.1]
    rfl
  · rw [h.2.2.1]
    rfl

/-! ### Pagination over the LinksByTarget index (C6) -/

lemma links_by_target_start (tfid : Nat) :
    links_by_target_key (Target.targetFid tfid) 0 none = .ok (lbt_start_key tfid) := by
  simp [links_by_target_key, lbt_start_key]

lemma collect_links_nil (t : Bytes) (sl n : Nat) (acc : List Bytes) :
    collect_links t sl n [] acc = (acc, none) := rfl

lemma collect_links_cons_match (t : Bytes) (sl n : Nat) (k v : Bytes)
    (rest : List (Bytes × Bytes)) (acc : List Bytes)
    (hm : (t.isEmpty || v == t) = true) (hfull : n ≤ acc.length + 1) :
    collect_links t sl n ((k, v) :: rest) acc =
      (acc ++ [reconstructPrimaryKey sl k], some k) := by
  simp only [collect_links]
  rw [hm]
  simp [hfull]

lemma collect_links_cons_cont (t : Bytes) (sl n : Nat) (k v : Bytes)
    (rest : List (Bytes × Bytes)) (acc : List Bytes)
    (hm : (t.isEmpty || v == t) = true) (hfull : ¬ n ≤ acc.length + 1) :
    collect_links t sl n ((k, v) :: rest) acc =
      collect_links t sl n rest (acc ++ [reconstructPrimaryKey sl k]) := by
  simp only [collect_links]
  rw [hm]
  simp [hfull]

lemma collect_links_cons_skip (t : Bytes) (sl n : Nat) (k v : Bytes)
    (rest : List (Bytes × Bytes)) (acc : List Bytes)
    (hm : (t.isEmpty || v == t) = false) :
    collect_links t sl n ((k, v) :: rest) acc = collect_links t sl n rest acc := by
  simp only [collect_links]
  rw [hm]
  simp

lemma collect_links_spec (t : Bytes) (sl n : Nat) :
    ∀ (entries : List (Bytes × Bytes)) (acc : List Bytes), acc.length < n →
      (collect_links t sl n entries acc).1 =
        acc ++ ((entries.filter fun e => t.isEmpty || e.2 == t).take (n - acc.length)).map
          (fun e => reconstructPrimaryKey sl e.1) ∧
      ((collect_links t sl n entries acc).2.isSome = true ↔
        n ≤ acc.length + (entries.filter fun e => t.isEmpty || e.2 == t).length) := by
  intro entries
  induction entries with
  | nil =>
    intro acc hacc
    refine ⟨by simp [collect_links_nil], ?_⟩
    rw [collect_links_nil]
    simp
    omega
  | cons e rest ih =>
    intro acc hacc
    rcases e with ⟨k, v⟩
    by_cases hm : (t.isEmpty || v == t) = true
    · by_cases hfull : n ≤ acc.length + 1
      · rw [collect_links_cons_match t sl n k v rest acc hm hfull]
        have hsub : n - acc.length = 1 := by omega
        constructor
        · simp [List.filter_cons, hm, hsub]
        · simp [List.filter_cons, hm]
          omega
      · rw [collect_links_cons_cont t sl n k v rest acc hm hfull]
        have hacc2 : (acc ++ [reconstructPrimaryKey sl k]).length < n := by
          simp
          omega
        obtain ⟨h1, h2⟩ := ih (acc ++ [reconstructPrimaryKey sl k]) hacc2
        have hlen : (acc ++ [reconstructPrimaryKey sl k]).length = acc.length + 1 := by simp
        obtain ⟨m, hm2⟩ : ∃ m, n - acc.length = m + 1 := ⟨n - acc.length - 1, by omega⟩
        have hm3 : n - (acc.length + 1) = m := by omega
        constructor
        · rw [h1, hlen, hm3]
          simp [List.filter_cons, hm, hm2]
        · rw [h2, hlen]
          simp [List.filter_cons, hm]
          omega
    · have hmf : (t.isEmpty || v == t) = false := by
        simpa using hm
      rw [collect_links_cons_skip t sl n k v rest acc hmf]
      obtain ⟨h1, h2⟩ := ih acc hacc
      refine ⟨?_, ?_⟩
      · rw [h1]
        simp [List.filter_cons, hmf]
      · rw [h2]
        simp [List.filter_cons, hmf]

lemma lookupMsg_eq_some {db : DbSnapshot} {k : Bytes} {mm : Message}
    (h : lookupMsg db k = some mm) : db.lookup k = some (KVal.msg mm) := by
  unfold lookupMsg at h
  rcases hdb : db.lookup k with _ | kv
  · rw [hdb] at h
    exact absurd h (by simp)
  · rw [hdb] at h
    cases kv with
    | raw b => simp at h
    | msg m =>
      simp at h
      rw [h]

lemma get_many_messages_ok (db : DbSnapshot) :
    ∀ keys : List Bytes, (∀ k ∈ keys, (lookupMsg db k).isSome = true) →
      get_many_messages db keys = .ok (keys.filterMap (lookupMsg db)) := by
  intro keys
  induction keys with
  | nil =>
    intro _
    rfl
  | cons k rest ih =>
    intro hall
    have hk := hall k (List.mem_cons_self k rest)
    obtain ⟨mm, hmm⟩ := Option.isSome_iff_exists.mp hk
    have hdb := lookupMsg_eq_some hmm
    have hrest := ih fun x hx => hall x (List.mem_cons_of_mem k hx)
    unfold get_many_messages
    simp [hdb, hrest, hmm]

/-- C6: `get_links_by_target` range-scans the LinksByTarget index under the
prefix `RootPrefix.LinksByTarget ‖ target_fid`, keeps exactly the scanned
entries whose stored value equals the requested type's bytes (all entries
when the type is empty), reconstructs each primary key from the key suffix
(tsHash at the prefix length, owner fid in the following 4 bytes), and
batch-fetches those messages in scan order; provided the page size is
positive and every collected primary record resolves, the call succeeds, the
page holds exactly the resolved messages of the first `page_size` matching
entries, and the continuation token is present exactly when the number of
matching entries reaches the page size. -/
theorem C6_links_by_target (db : DbSnapshot) (tfid : Nat) (t : Bytes)
    (psize : Option Nat) (tok : Option Bytes)
    (hps : 0 < psize.getD PAGE_SIZE_MAX)
    (hres : ∀ k ∈ ((lbt_matching db tfid t tok).take (psize.getD PAGE_SIZE_MAX)).map
        (fun e => reconstructPrimaryKey (lbt_start_key tfid).length e.1),
      (lookupMsg db k).isSome = true) :
    ∃ page, get_links_by_target db (Target.targetFid tfid) t psize tok = .ok page ∧
      page.messages =
        (((lbt_matching db tfid t tok).take (psize.getD PAGE_SIZE_MAX)).map
          (fun e => reconstructPrimaryKey (lbt_start_key tfid).length e.1)).filterMap
          (lookupMsg db) ∧
      (page.nextPageToken.isSome = true ↔
        psize.getD PAGE_SIZE_MAX ≤ (lbt_matching db tfid t tok).length) := by
  obtain ⟨h1, h2⟩ := collect_links_spec t (lbt_start_key tfid).length
    (psize.getD PAGE_SIZE_MAX) (scan_range db (lbt_start_key tfid) tok) []
    (by simpa using hps)
  have h1' : (collect_links t (lbt_start_key tfid).length (psize.getD PAGE_SIZE_MAX)
      (scan_range db (lbt_start_key tfid) tok) []).1 =
      ((lbt_matching db tfid t tok).take (psize.getD PAGE_SIZE_MAX)).map
        (fun e => reconstructPrimaryKey (lbt_start_key tfid).length e.1) := by
    rw [h1]
    simp [lbt_matching]
  have h2' : ((collect_links t (lbt_start_key tfid).length (psize.getD PAGE_SIZE_MAX)
      (scan_range db (lbt_start_key tfid) tok) []).2.isSome = true ↔
      psize.getD PAGE_SIZE_MAX ≤ (lbt_matching db tfid t tok).length) := by
    rw [h2]
    simp [lbt_matching]
  have hfetch := get_many_messages_ok db
    ((collect_links t (lbt_start_key tfid).length (psize.getD PAGE_SIZE_MAX)
      (scan_range db (lbt_start_key tfid) tok) []).1)
    (by
      rw [h1']
      exact hres)
  refine ⟨⟨(((lbt_matching db tfid t tok).take (psize.getD PAGE_SIZE_MAX)).map
      (fun e => reconstructPrimaryKey (lbt_start_key tfid).length e.1)).filterMap
      (lookupMsg db),
      (collect_links t (lbt_start_key tfid).length (psize.getD PAGE_SIZE_MAX)
        (scan_range db (lbt_start_key tfid) tok) []).2⟩, ?_, rfl, h2'⟩
  unfold get_links_by_target
  simp only [links_by_target_start]
  rw [hfetch, h1']

/-- C6 witness: a two-entry snapshot holding one LinksByTarget index entry
for target fid 1 (value = the unpadded type bytes) and its primary record;
the query returns the one message with no continuation token. -/
theorem C6_links_by_target_witness :
    ∃ page, get_links_by_target
        [(slot_by_target_key 6833 1
            (ts_hash_of ⟨some ⟨6833, 5, 100, some (Body.linkBody ⟨[102, 111, 108],
              some (Target.targetFid 1)⟩)⟩, List.replicate 20 170, 1⟩),
          KVal.raw [102, 111, 108]),
         (slot_primary_key 6833
            (ts_hash_of ⟨some ⟨6833, 5, 100, some (Body.linkBody ⟨[102, 111, 108],
              some (Target.targetFid 1)⟩)⟩, List.replicate 20 170, 1⟩),
          KVal.msg ⟨some ⟨6833, 5, 100, some (Body.linkBody ⟨[102, 111, 108],
            some (Target.targetFid 1)⟩)⟩, List.replicate 20 170, 1⟩)]
        (Target.targetFid 1) [102, 111, 108] none none = .ok page ∧
      page.messages =
        (((lbt_matching
            [(slot_by_target_key 6833 1
                (ts_hash_of ⟨some ⟨6833, 5, 100, some (Body.linkBody ⟨[102, 111, 108],
                  some (Target.targetFid 1)⟩)⟩, List.replicate 20 170, 1⟩),
              KVal.raw [102, 111, 108]),
             (slot_primary_key 6833
                (ts_hash_of ⟨some ⟨6833, 5, 100, some (Body.linkBody ⟨[102, 111, 108],
                  some (Target.targetFid 1)⟩)⟩, List.replicate 20 170, 1⟩),
              KVal.msg ⟨some ⟨6833, 5, 100, some (Body.linkBody ⟨[102, 111, 108],
                some (Target.targetFid 1)⟩)⟩, List.replicate 20 170, 1⟩)]
            1 [102, 111, 108] none).take PAGE_SIZE_MAX).map
          (fun e => reconstructPrimaryKey (lbt_start_key 1).length e.1)).filterMap
          (lookupMsg
            [(slot_by_target_key 6833 1
                (ts_hash_of ⟨some ⟨6833, 5, 100, some (Body.linkBody ⟨[102, 111, 108],
                  some (Target.targetFid 1)⟩)⟩, List.replicate 20 170, 1⟩),
              KVal.raw [102, 111, 108]),
             (slot_primary_key 6833
                (ts_hash_of ⟨some ⟨6833, 5, 100, some (Body.linkBody ⟨[102, 111, 108],
                  some (Target.targetFid 1)⟩)⟩, List.replicate 20 170, 1⟩),
              KVal.msg ⟨some ⟨6833, 5, 100, some (Body.linkBody ⟨[102, 111, 108],
                some (Target.targetFid 1)⟩)⟩, List.replicate 20 170, 1⟩)]) ∧
      (page.nextPageToken.isSome = true ↔
        PAGE_SIZE_MAX ≤ (lbt_matching
            [(slot_by_target_key 6833 1
                (ts_hash_of ⟨some ⟨6833, 5, 100, some (Body.linkBody ⟨[102, 111, 108],
                  some (Target.targetFid 1)⟩)⟩, List.replicate 20 170, 1⟩),
              KVal.raw [102, 111, 108]),
             (slot_primary_key 6833
                (ts_hash_of ⟨some ⟨6833, 5, 100, some (Body.linkBody ⟨[102, 111, 108],
                  some (Target.targetFid 1)⟩)⟩, List.replicate 20 170, 1⟩),
              KVal.msg ⟨some ⟨6833, 5, 100, some (Body.linkBody ⟨[102, 111, 108],
                some (Target.targetFid 1)⟩)⟩, List.replicate 20 170, 1⟩)]
            1 [102, 111, 108] none).length) :=
  C6_links_by_target
    [(slot_by_target_key 6833 1
        (ts_hash_of ⟨some ⟨6833, 5, 100, some (Body.linkBody ⟨[102, 111, 108],
          some (Target.targetFid 1)⟩)⟩, List.replicate 20 170, 1⟩),
      KVal.raw [102, 111, 108]),
     (slot_primary_key 6833
        (ts_hash_of ⟨some ⟨6833, 5, 100, some (Body.linkBody ⟨[102, 111, 108],
          some (Target.targetFid 1)⟩)⟩, List.replicate 20 170, 1⟩),
      KVal.msg ⟨some ⟨6833, 5, 100, some (Body.linkBody ⟨[102, 111, 108],
        some (Target.targetFid 1)⟩)⟩, List.replicate 20 170, 1⟩)]
    1 [102, 111, 108] none none (by decide) (by decide)

/-- C1 witness: the follow-then-unfollow scenario — an Add at timestamp 100
and a Remove at timestamp 101 on the slot (6833, "follow", 1), merged in
both orders, converge to the same state retaining the comparator maximum. -/
theorem C1_convergence_witness :
    mergeList emptyState
        [⟨some ⟨6833, 5, 100, some (Body.linkBody ⟨[102, 111, 108, 108, 111, 119],
            some (Target.targetFid 1)⟩)⟩, List.replicate 20 170, 1⟩,
         ⟨some ⟨6833, 6, 101, some (Body.linkBody ⟨[102, 111, 108, 108, 111, 119],
            some (Target.targetFid 1)⟩)⟩, List.replicate 20 187, 1⟩] =
      mergeList emptyState
        [⟨some ⟨6833, 6, 101, some (Body.linkBody ⟨[102, 111, 108, 108, 111, 119],
            some (Target.targetFid 1)⟩)⟩, List.replicate 20 187, 1⟩,
         ⟨some ⟨6833, 5, 100, some (Body.linkBody ⟨[102, 111, 108, 108, 111, 119],
            some (Target.targetFid 1)⟩)⟩, List.replicate 20 170, 1⟩] ∧
    ∃ mx, mx ∈
        [⟨some ⟨6833, 5, 100, some (Body.linkBody ⟨[102, 111, 108, 108, 111, 119],
            some (Target.targetFid 1)⟩)⟩, (List.replicate 20 170 : Bytes), 1⟩,
         ⟨some ⟨6833, 6, 101, some (Body.linkBody ⟨[102, 111, 108, 108, 111, 119],
            some (Target.targetFid 1)⟩)⟩, List.replicate 20 187, 1⟩] ∧
      (∀ y ∈
        [(⟨some ⟨6833, 5, 100, some (Body.linkBody ⟨[102, 111, 108, 108, 111, 119],
            some (Target.targetFid 1)⟩)⟩, (List.replicate 20 170 : Bytes), 1⟩ : Message),
         ⟨some ⟨6833, 6, 101, some (Body.linkBody ⟨[102, 111, 108, 108, 111, 119],
            some (Target.targetFid 1)⟩)⟩, List.replicate 20 187, 1⟩], y ≠ mx →
        slotCompare mx y > 0) ∧
      mergeList emptyState
        [⟨some ⟨6833, 5, 100, some (Body.linkBody ⟨[102, 111, 108, 108, 111, 119],
            some (Target.targetFid 1)⟩)⟩, List.replicate 20 170, 1⟩,
         ⟨some ⟨6833, 6, 101, some (Body.linkBody ⟨[102, 111, 108, 108, 111, 119],
            some (Target.targetFid 1)⟩)⟩, List.replicate 20 187, 1⟩] = slot_state mx :=
  C1_convergence 6833 [102, 111, 108, 108, 111, 119] 1 _ _
    (by decide) (by decide) (by decide) (by decide)

end Snapchain
